import Mathlib

-- Verification of the incremental field-extraction engine:
-- shallow embedding of the extractor page (shell/src/app/use-cases/extractor/page.tsx),
-- the extractor API route (schema compiler and POST handler) and the persistence layer.
-- JS Records are modelled as partial maps (String to Option values); the JS Set of
-- encoded cell keys "docId::colId" is modelled as a boolean function on the pair
-- (docId, colId); the encoding is injective for ids free of the separator, which
-- holds for all ids produced by randomId.

set_option maxHeartbeats 1000000
set_option maxRecDepth 4000

namespace AIP

/-- Base value types of the extractor (source: type BaseType). -/
inductive BaseType where
  | text
  | number
  | date
  | boolean
deriving DecidableEq, Repr

/-- A field of a user defined custom type (source: type Attribute). -/
structure Attribute where
  name : String
  description : String
  type : BaseType
deriving DecidableEq, Repr

/-- A user defined composite type (source: type CustomType). -/
structure CustomType where
  name : String
  description : String
  attributes : List Attribute
deriving DecidableEq, Repr

/-- The tagged union of column types (source: the type field of Column). -/
inductive ColumnType where
  | base (baseType : BaseType)
  | custom (typeName : String)
deriving DecidableEq, Repr

/-- Cardinality of a column (source: the cardinality field of Column). -/
inductive Cardinality where
  | one
  | many
deriving DecidableEq, Repr

/-- A column declaration (source: type Column). -/
structure Column where
  id : String
  name : String
  description : String
  type : ColumnType
  cardinality : Cardinality
deriving DecidableEq, Repr

/-- An uploaded document (source: type UploadedDoc). -/
structure Doc where
  id : String
  name : String
  text : String
deriving DecidableEq, Repr

/-- JSON-like values (source: the LooseJson type of lib/persist.ts and the
dynamic values produced by JSON.parse in the route handler). -/
inductive Json where
  | null
  | bool (b : Bool)
  | num (n : Int)
  | str (s : String)
  | arr (items : List Json)
  | obj (entries : List (String × Json))

/-- Lowercase hexadecimal digit, used by the JSON string escaper. -/
def hexDigit (n : Nat) : Char :=
  if n < 10 then Char.ofNat (48 + n) else Char.ofNat (87 + n)

/-- Escape of a single character exactly as JSON.stringify escapes characters
inside string literals. -/
def jsonEscapeChar (c : Char) : String :=
  if c = '"' then "\\\""
  else if c = '\\' then "\\\\"
  else if c = '\x08' then "\\b"
  else if c = '\x09' then "\\t"
  else if c = '\x0a' then "\\n"
  else if c = '\x0c' then "\\f"
  else if c = '\x0d' then "\\r"
  else if c.toNat < 32 then "\\u00" ++ String.mk [hexDigit (c.toNat / 16), hexDigit (c.toNat % 16)]
  else String.singleton c

/-- JSON string escaping applied to a whole string. -/
def jsonEscape (s : String) : String :=
  String.join (s.data.map jsonEscapeChar)

/-- A JSON string literal: escaped and wrapped in double quotes. -/
def quoteStr (s : String) : String :=
  "\"" ++ jsonEscape s ++ "\""

/-- JSON.stringify of a BaseType value (they are string literals in the source). -/
def serializeBaseType : BaseType → String
  | .text => quoteStr "text"
  | .number => quoteStr "number"
  | .date => quoteStr "date"
  | .boolean => quoteStr "boolean"

/-- JSON.stringify of a Cardinality value. -/
def serializeCardinality : Cardinality → String
  | .one => quoteStr "one"
  | .many => quoteStr "many"

/-- JSON.stringify of a ColumnType value.  Key order follows the object
literals that create these values in the source. -/
def serializeColumnType : ColumnType → String
  | .base bt => "\x7b\"kind\":\"base\",\"baseType\":" ++ serializeBaseType bt ++ "\x7d"
  | .custom tn => "\x7b\"kind\":\"custom\",\"typeName\":" ++ quoteStr tn ++ "\x7d"

/-- JSON.stringify of a Column.  JS object key order depends on construction
history; we fix the declared field order of type Column. -/
def serializeColumn (c : Column) : String :=
  "\x7b\"id\":" ++ quoteStr c.id ++
  ",\"name\":" ++ quoteStr c.name ++
  ",\"description\":" ++ quoteStr c.description ++
  ",\"type\":" ++ serializeColumnType c.type ++
  ",\"cardinality\":" ++ serializeCardinality c.cardinality ++ "\x7d"

/-- JSON.stringify of an Attribute. -/
def serializeAttribute (a : Attribute) : String :=
  "\x7b\"name\":" ++ quoteStr a.name ++
  ",\"description\":" ++ quoteStr a.description ++
  ",\"type\":" ++ serializeBaseType a.type ++ "\x7d"

/-- JSON.stringify of a CustomType. -/
def serializeCustomType (t : CustomType) : String :=
  "\x7b\"name\":" ++ quoteStr t.name ++
  ",\"description\":" ++ quoteStr t.description ++
  ",\"attributes\":[" ++ String.intercalate "," (t.attributes.map serializeAttribute) ++ "]\x7d"

/-- JSON.stringify of the full custom-type array. -/
def serializeCustomTypes (ts : List CustomType) : String :=
  "[" ++ String.intercalate "," (ts.map serializeCustomType) ++ "]"

/-- Two-s-complement truncation to a signed 32-bit integer, the effect of the
JS expression (hash and hash) and of the left-shift operator. -/
def wrap32 (n : Int) : Int :=
  (n + 2 ^ 31) % 2 ^ 32 - 2 ^ 31

/-- One step of simpleHash: hash = ((hash << 5) - hash) + char; hash = hash & hash.
The shift wraps to 32 bits, and the final bitwise-and truncates again. -/
def hashStep (hash : Int) (code : Nat) : Int :=
  wrap32 (wrap32 (hash * 2 ^ 5) - hash + code)

/-- The UTF-16 code units of a string, in order; str.charCodeAt(i) in JS
iterates these units (surrogate pairs for characters beyond the BMP). -/
def utf16CodeUnits (s : String) : List Nat :=
  s.data.flatMap (fun c =>
    if c.toNat < 65536 then [c.toNat]
    else [55296 + (c.toNat - 65536) / 1024, 56320 + (c.toNat - 65536) % 1024])

/-- The signed 32-bit rolling-hash value accumulated by simpleHash before the
absolute value is taken. -/
def hashValue (s : String) : Int :=
  (utf16CodeUnits s).foldl hashStep 0

/-- Character for one base-36 digit, as produced by Number.prototype.toString(36). -/
def base36Digit (n : Nat) : Char :=
  if n < 10 then Char.ofNat (48 + n) else Char.ofNat (87 + n)

/-- Fuel-driven digit expansion; the fuel is an upper bound on the number of
divisions by 36 needed, so the result is the usual base-36 digit list. -/
def toBase36Aux : Nat → Nat → List Char
  | 0, _ => []
  | _ + 1, 0 => []
  | fuel + 1, n => toBase36Aux fuel (n / 36) ++ [base36Digit (n % 36)]

/-- Base-36 representation of a natural number, lowercase, as produced by
Math.abs(hash).toString(36). -/
def natToBase36 (n : Nat) : String :=
  if n = 0 then "0" else String.mk (toBase36Aux (n + 1) n)

/-- simpleHash from page.tsx: 32-bit rolling hash of the UTF-16 code units,
absolute value, base-36. -/
def simpleHash (s : String) : String :=
  natToBase36 (hashValue s).natAbs

/-- The concatenated input of createExtractionCacheKey:
docId|colId|docText|JSON.stringify(column)|JSON.stringify(customTypes). -/
def cacheKeyInput (docId colId docText : String) (column : Column)
    (customTypes : List CustomType) : String :=
  docId ++ "|" ++ colId ++ "|" ++ docText ++ "|" ++ serializeColumn column ++ "|" ++
    serializeCustomTypes customTypes

/-- createExtractionCacheKey from page.tsx. -/
def createExtractionCacheKey (docId colId docText : String) (column : Column)
    (customTypes : List CustomType) : String :=
  simpleHash (cacheKeyInput docId colId docText column customTypes)

/-- A JS Record of extraction values for one document: a partial map from
column ids to values.  Keys present in the record are exactly the inputs on
which the map returns some value. -/
def Rec : Type := String → Option Json

/-- The empty record. -/
def emptyRec : Rec := fun _ => none

/-- The resultsByDoc state: documentId to the record of extracted values. -/
def Matr : Type := String → Option Rec

/-- One entry of the remote response (source: type ExtractionResult). -/
structure ExtractionResult where
  documentId : String
  data : Rec

/-- The mutable extractor state touched by the orchestrator: the results
matrix, the loading-cell set (as a predicate on (docId, colId) pairs, see the
header note on cellKey) and the persistent extraction cache keyed by
fingerprint. -/
structure ExtState where
  resultsByDoc : Matr
  loading : String → String → Bool
  cache : String → Option Rec

/-- The value of one matrix cell. -/
def cellValue (m : Matr) (docId colId : String) : Option Json :=
  match m docId with
  | some row => row colId
  | none => none

/-- markCellsLoading from page.tsx: add every (doc, col) pair of the cross
product to the loading set. -/
def markCellsLoading (docIds colIds : List String) (s : ExtState) : ExtState :=
  { s with loading := fun d c =>
      if docIds.contains d && colIds.contains c then true else s.loading d c }

/-- markCellsDone from page.tsx: remove every (doc, col) pair of the cross
product from the loading set. -/
def markCellsDone (docIds colIds : List String) (s : ExtState) : ExtState :=
  { s with loading := fun d c =>
      if docIds.contains d && colIds.contains c then false else s.loading d c }

/-- Object spread of one incoming data record over an existing row:
keys present in the incoming record win, all other keys keep the old value. -/
def mergeRec (old incoming : Rec) : Rec := fun k =>
  match incoming k with
  | some v => some v
  | none => old k

/-- One iteration of the loop in mergeExtractionResults: next[r.documentId] =
spread of r.data over the existing row (or over the empty row). -/
def applyExtractionResult (m : Matr) (r : ExtractionResult) : Matr :=
  fun d =>
    if d = r.documentId then
      some (mergeRec (match m r.documentId with | some row => row | none => emptyRec) r.data)
    else m d

/-- mergeExtractionResults from page.tsx, folded over the result list in order. -/
def mergeExtractionResults (newResults : List ExtractionResult) (m : Matr) : Matr :=
  newResults.foldl applyExtractionResult m

/-- cleanupColumnState from page.tsx: drop the column key from every document
row of resultsByDoc and drop every loading cell whose column part is this
column. -/
def cleanupColumnState (columnId : String) (s : ExtState) : ExtState :=
  { s with
    resultsByDoc := fun d =>
      match s.resultsByDoc d with
      | some row => some (fun k => if k = columnId then none else row k)
      | none => none,
    loading := fun d c => if c = columnId then false else s.loading d c }

/-- A batched request to the remote extraction service (the JSON body sent by
the orchestrator to /api/extractor). -/
structure ExtractRequest where
  documents : List Doc
  columns : List Column
  customTypes : List CustomType

/-- The observable outcome of one orchestrator invocation: the final state,
the intermediate states after each state mutation in order, the requests
issued to the remote service, and the error messages surfaced to the user. -/
structure RunResult where
  state : ExtState
  trace : List ExtState
  requests : List ExtractRequest
  alerts : List String

/-- Helper for first-occurrence deduplication: keep an element when it has not
been seen yet. -/
def dedupFirstAux {α : Type} [DecidableEq α] (seen : List α) : List α → List α
  | [] => []
  | a :: as => if a ∈ seen then dedupFirstAux seen as else a :: dedupFirstAux (a :: seen) as

/-- First-occurrence deduplication, the effect of Array.from(new Set(list)). -/
def dedupFirst {α : Type} [DecidableEq α] (l : List α) : List α :=
  dedupFirstAux [] l

/-- The cache-hit results gathered by the per-document probe loop of
extractForNewColumn, in document order. -/
def hitResultsForColumn (documents : List Doc) (customTypes : List CustomType)
    (col : Column) (s : ExtState) : List ExtractionResult :=
  documents.filterMap (fun doc =>
    (s.cache (createExtractionCacheKey doc.id col.id doc.text col customTypes)).map
      (fun row => ⟨doc.id, row⟩))

/-- The uncached documents gathered by the probe loop of extractForNewColumn. -/
def missDocsForColumn (documents : List Doc) (customTypes : List CustomType)
    (col : Column) (s : ExtState) : List Doc :=
  documents.filter (fun doc =>
    (s.cache (createExtractionCacheKey doc.id col.id doc.text col customTypes)).isNone)

/-- The cache writes performed by the success path of extractForNewColumn:
every returned row whose document is among the uncached documents is stored
wholesale under the fingerprint of that document and the new column. -/
def newColumnCacheWrites (customTypes : List CustomType)
    (col : Column) (uncachedDocs : List Doc) (results : List ExtractionResult)
    (cache : String → Option Rec) : String → Option Rec :=
  results.foldl (fun ch r =>
    match uncachedDocs.find? (fun d => d.id == r.documentId) with
    | some doc => fun k =>
        if k = createExtractionCacheKey doc.id col.id doc.text col customTypes then some r.data
        else ch k
    | none => ch) cache

/-- extractForNewColumn from page.tsx, with the remote service as an oracle.
Mark all cells loading, probe the cache per document, merge hits (the merge
of an empty hit list is the identity, matching the guarded setState of the
source), and either return (all hits) or issue one batched request for the
misses; on success the results are written to the cache and merged, on
failure an alert is surfaced; in both cases the loading flags of all
targeted cells are cleared. -/
def extractForNewColumn (documents : List Doc) (customTypes : List CustomType)
    (remote : ExtractRequest → Except String (List ExtractionResult))
    (newColumn : Column) (s : ExtState) : RunResult :=
  if documents.isEmpty then ⟨s, [], [], []⟩ else
  let docIds := documents.map Doc.id
  let colIds := [newColumn.id]
  let s1 := markCellsLoading docIds colIds s
  let cachedResults := hitResultsForColumn documents customTypes newColumn s
  let uncachedDocs := missDocsForColumn documents customTypes newColumn s
  let s2 := { s1 with resultsByDoc := mergeExtractionResults cachedResults s1.resultsByDoc }
  if uncachedDocs.isEmpty then
    let s3 := markCellsDone docIds colIds s2
    ⟨s3, [s1, s2, s3], [], []⟩
  else
    let request : ExtractRequest := ⟨uncachedDocs, [newColumn], customTypes⟩
    match remote request with
    | .ok results =>
      let s3 := { s2 with cache :=
        newColumnCacheWrites customTypes newColumn uncachedDocs results s2.cache }
      let s4 := { s3 with resultsByDoc := mergeExtractionResults results s3.resultsByDoc }
      let s5 := markCellsDone docIds colIds s4
      ⟨s5, [s1, s2, s3, s4, s5], [request], []⟩
    | .error e =>
      let s5 := markCellsDone docIds colIds s2
      ⟨s5, [s1, s2, s5], [request], ["Extraction failed: " ++ e]⟩

/-- The cache-hit results gathered by the per-pair probe loop of
extractForNewDocuments, in document-major order. -/
def hitResultsForPairs (customTypes : List CustomType) (newDocs : List Doc)
    (targetColumns : List Column) (s : ExtState) : List ExtractionResult :=
  newDocs.flatMap (fun doc =>
    targetColumns.filterMap (fun col =>
      (s.cache (createExtractionCacheKey doc.id col.id doc.text col customTypes)).map
        (fun row => ⟨doc.id, row⟩)))

/-- The uncached requests gathered by extractForNewDocuments: each document
with at least one missed column, paired with its missed columns. -/
def missRequestsForPairs (customTypes : List CustomType) (newDocs : List Doc)
    (targetColumns : List Column) (s : ExtState) : List (Doc × List Column) :=
  newDocs.filterMap (fun doc =>
    let docUncachedColumns := targetColumns.filter (fun col =>
      (s.cache (createExtractionCacheKey doc.id col.id doc.text col customTypes)).isNone)
    if docUncachedColumns.isEmpty then none else some (doc, docUncachedColumns))

/-- The cache writes performed by the success path of extractForNewDocuments:
per returned document found among the uncached requests, each of its missed
columns with a defined value is stored as a single-column record under the
pair fingerprint. -/
def newDocsCacheWrites (customTypes : List CustomType)
    (uncachedRequests : List (Doc × List Column)) (results : List ExtractionResult)
    (cache : String → Option Rec) : String → Option Rec :=
  results.foldl (fun ch r =>
    match (uncachedRequests.map Prod.fst).find? (fun d => d.id == r.documentId) with
    | none => ch
    | some doc =>
      match uncachedRequests.find? (fun q => q.fst.id == doc.id) with
      | none => ch
      | some q => q.snd.foldl (fun ch2 col =>
          match r.data col.id with
          | none => ch2
          | some v => fun k =>
              if k = createExtractionCacheKey doc.id col.id doc.text col customTypes then
                some (fun k2 => if k2 = col.id then some v else none)
              else ch2 k) ch) cache

/-- extractForNewDocuments from page.tsx, with the remote service as an
oracle.  The cache is probed per (document, column) pair; the request carries
the union of documents with at least one miss and the deduplicated union of
their missed columns; cached rows under a key are single-column records. -/
def extractForNewDocuments (customTypes : List CustomType)
    (remote : ExtractRequest → Except String (List ExtractionResult))
    (newDocs : List Doc) (targetColumns : List Column) (s : ExtState) : RunResult :=
  if newDocs.isEmpty || targetColumns.isEmpty then ⟨s, [], [], []⟩ else
  let docIds := newDocs.map Doc.id
  let colIds := targetColumns.map Column.id
  let s1 := markCellsLoading docIds colIds s
  let cachedResults := hitResultsForPairs customTypes newDocs targetColumns s
  let uncachedRequests := missRequestsForPairs customTypes newDocs targetColumns s
  let s2 := { s1 with resultsByDoc := mergeExtractionResults cachedResults s1.resultsByDoc }
  if uncachedRequests.isEmpty then
    let s3 := markCellsDone docIds colIds s2
    ⟨s3, [s1, s2, s3], [], []⟩
  else
    let request : ExtractRequest :=
      ⟨uncachedRequests.map Prod.fst, dedupFirst (uncachedRequests.flatMap Prod.snd), customTypes⟩
    match remote request with
    | .ok results =>
      let s3 := { s2 with cache :=
        newDocsCacheWrites customTypes uncachedRequests results s2.cache }
      let s4 := { s3 with resultsByDoc := mergeExtractionResults results s3.resultsByDoc }
      let s5 := markCellsDone docIds colIds s4
      ⟨s5, [s1, s2, s3, s4, s5], [request], []⟩
    | .error e =>
      let s5 := markCellsDone docIds colIds s2
      ⟨s5, [s1, s2, s5], [request], ["Extraction failed: " ++ e]⟩

/-- The state right after markCellsLoading in extractForNewColumn. -/
def ncState1 (documents : List Doc) (col : Column) (s : ExtState) : ExtState :=
  markCellsLoading (documents.map Doc.id) [col.id] s

/-- The state after the cache hits are merged in extractForNewColumn. -/
def ncState2 (documents : List Doc) (cts : List CustomType) (col : Column) (s : ExtState) : ExtState :=
  let s1 := ncState1 documents col s
  { s1 with resultsByDoc :=
      mergeExtractionResults (hitResultsForColumn documents cts col s) s1.resultsByDoc }

/-- The single request issued by extractForNewColumn when misses exist. -/
def ncRequest (documents : List Doc) (cts : List CustomType) (col : Column) (s : ExtState) :
    ExtractRequest :=
  ⟨missDocsForColumn documents cts col s, [col], cts⟩

/-- The state after the success-path cache writes in extractForNewColumn. -/
def ncState3 (documents : List Doc) (cts : List CustomType) (col : Column) (s : ExtState)
    (results : List ExtractionResult) : ExtState :=
  let s2 := ncState2 documents cts col s
  { s2 with cache :=
      newColumnCacheWrites cts col (missDocsForColumn documents cts col s) results s2.cache }

/-- The state after the response rows are merged in extractForNewColumn. -/
def ncState4 (documents : List Doc) (cts : List CustomType) (col : Column) (s : ExtState)
    (results : List ExtractionResult) : ExtState :=
  let s3 := ncState3 documents cts col s results
  { s3 with resultsByDoc := mergeExtractionResults results s3.resultsByDoc }

theorem extractForNewColumn_allHit (documents : List Doc) (cts : List CustomType)
    (remote : ExtractRequest → Except String (List ExtractionResult)) (col : Column)
    (s : ExtState) (hne : documents.isEmpty = false)
    (hmiss : (missDocsForColumn documents cts col s).isEmpty = true) :
    extractForNewColumn documents cts remote col s =
      ⟨markCellsDone (documents.map Doc.id) [col.id] (ncState2 documents cts col s),
       [ncState1 documents col s, ncState2 documents cts col s,
        markCellsDone (documents.map Doc.id) [col.id] (ncState2 documents cts col s)],
       [], []⟩ := by
  unfold extractForNewColumn
  rw [if_neg (by rw [hne]; exact Bool.false_ne_true)]
  dsimp only
  rw [if_pos hmiss]
  rfl

theorem extractForNewColumn_err (documents : List Doc) (cts : List CustomType)
    (remote : ExtractRequest → Except String (List ExtractionResult)) (col : Column)
    (s : ExtState) (e : String) (hne : documents.isEmpty = false)
    (hmiss : (missDocsForColumn documents cts col s).isEmpty = false)
    (hrem : remote (ncRequest documents cts col s) = .error e) :
    extractForNewColumn documents cts remote col s =
      ⟨markCellsDone (documents.map Doc.id) [col.id] (ncState2 documents cts col s),
       [ncState1 documents col s, ncState2 documents cts col s,
        markCellsDone (documents.map Doc.id) [col.id] (ncState2 documents cts col s)],
       [ncRequest documents cts col s],
       ["Extraction failed: " ++ e]⟩ := by
  unfold extractForNewColumn
  rw [if_neg (by rw [hne]; exact Bool.false_ne_true)]
  dsimp only
  rw [if_neg (by rw [hmiss]; exact Bool.false_ne_true)]
  rw [show remote ⟨missDocsForColumn documents cts col s, [col], cts⟩ = .error e from hrem]
  rfl

theorem extractForNewColumn_ok (documents : List Doc) (cts : List CustomType)
    (remote : ExtractRequest → Except String (List ExtractionResult)) (col : Column)
    (s : ExtState) (results : List ExtractionResult) (hne : documents.isEmpty = false)
    (hmiss : (missDocsForColumn documents cts col s).isEmpty = false)
    (hrem : remote (ncRequest documents cts col s) = .ok results) :
    extractForNewColumn documents cts remote col s =
      ⟨markCellsDone (documents.map Doc.id) [col.id] (ncState4 documents cts col s results),
       [ncState1 documents col s, ncState2 documents cts col s,
        ncState3 documents cts col s results, ncState4 documents cts col s results,
        markCellsDone (documents.map Doc.id) [col.id] (ncState4 documents cts col s results)],
       [ncRequest documents cts col s],
       []⟩ := by
  unfold extractForNewColumn
  rw [if_neg (by rw [hne]; exact Bool.false_ne_true)]
  dsimp only
  rw [if_neg (by rw [hmiss]; exact Bool.false_ne_true)]
  rw [show remote ⟨missDocsForColumn documents cts col s, [col], cts⟩ = .ok results from hrem]
  rfl

/-- The state right after markCellsLoading in extractForNewDocuments. -/
def ndState1 (newDocs : List Doc) (targetColumns : List Column) (s : ExtState) : ExtState :=
  markCellsLoading (newDocs.map Doc.id) (targetColumns.map Column.id) s

/-- The state after the cache hits are merged in extractForNewDocuments. -/
def ndState2 (cts : List CustomType) (newDocs : List Doc) (targetColumns : List Column)
    (s : ExtState) : ExtState :=
  let s1 := ndState1 newDocs targetColumns s
  { s1 with resultsByDoc :=
      mergeExtractionResults (hitResultsForPairs cts newDocs targetColumns s) s1.resultsByDoc }

/-- The single request issued by extractForNewDocuments when misses exist. -/
def ndRequest (cts : List CustomType) (newDocs : List Doc) (targetColumns : List Column)
    (s : ExtState) : ExtractRequest :=
  ⟨(missRequestsForPairs cts newDocs targetColumns s).map Prod.fst,
   dedupFirst ((missRequestsForPairs cts newDocs targetColumns s).flatMap Prod.snd),
   cts⟩

/-- The state after the success-path cache writes in extractForNewDocuments. -/
def ndState3 (cts : List CustomType) (newDocs : List Doc) (targetColumns : List Column)
    (s : ExtState) (results : List ExtractionResult) : ExtState :=
  let s2 := ndState2 cts newDocs targetColumns s
  { s2 with cache :=
      newDocsCacheWrites cts (missRequestsForPairs cts newDocs targetColumns s) results s2.cache }

/-- The state after the response rows are merged in extractForNewDocuments. -/
def ndState4 (cts : List CustomType) (newDocs : List Doc) (targetColumns : List Column)
    (s : ExtState) (results : List ExtractionResult) : ExtState :=
  let s3 := ndState3 cts newDocs targetColumns s results
  { s3 with resultsByDoc := mergeExtractionResults results s3.resultsByDoc }

theorem extractForNewDocuments_allHit (cts : List CustomType)
    (remote : ExtractRequest → Except String (List ExtractionResult)) (newDocs : List Doc)
    (targetColumns : List Column) (s : ExtState)
    (hne : (newDocs.isEmpty || targetColumns.isEmpty) = false)
    (hmiss : (missRequestsForPairs cts newDocs targetColumns s).isEmpty = true) :
    extractForNewDocuments cts remote newDocs targetColumns s =
      ⟨markCellsDone (newDocs.map Doc.id) (targetColumns.map Column.id)
         (ndState2 cts newDocs targetColumns s),
       [ndState1 newDocs targetColumns s, ndState2 cts newDocs targetColumns s,
        markCellsDone (newDocs.map Doc.id) (targetColumns.map Column.id)
          (ndState2 cts newDocs targetColumns s)],
       [], []⟩ := by
  unfold extractForNewDocuments
  rw [if_neg (by rw [hne]; exact Bool.false_ne_true)]
  dsimp only
  rw [if_pos hmiss]
  rfl

theorem extractForNewDocuments_err (cts : List CustomType)
    (remote : ExtractRequest → Except String (List ExtractionResult)) (newDocs : List Doc)
    (targetColumns : List Column) (s : ExtState) (e : String)
    (hne : (newDocs.isEmpty || targetColumns.isEmpty) = false)
    (hmiss : (missRequestsForPairs cts newDocs targetColumns s).isEmpty = false)
    (hrem : remote (ndRequest cts newDocs targetColumns s) = .error e) :
    extractForNewDocuments cts remote newDocs targetColumns s =
      ⟨markCellsDone (newDocs.map Doc.id) (targetColumns.map Column.id)
         (ndState2 cts newDocs targetColumns s),
       [ndState1 newDocs targetColumns s, ndState2 cts newDocs targetColumns s,
        markCellsDone (newDocs.map Doc.id) (targetColumns.map Column.id)
          (ndState2 cts newDocs targetColumns s)],
       [ndRequest cts newDocs targetColumns s],
       ["Extraction failed: " ++ e]⟩ := by
  unfold extractForNewDocuments
  rw [if_neg (by rw [hne]; exact Bool.false_ne_true)]
  dsimp only
  rw [if_neg (by rw [hmiss]; exact Bool.false_ne_true)]
  rw [show remote ⟨(missRequestsForPairs cts newDocs targetColumns s).map Prod.fst,
    dedupFirst ((missRequestsForPairs cts newDocs targetColumns s).flatMap Prod.snd), cts⟩
      = .error e from hrem]
  rfl

theorem extractForNewDocuments_ok (cts : List CustomType)
    (remote : ExtractRequest → Except String (List ExtractionResult)) (newDocs : List Doc)
    (targetColumns : List Column) (s : ExtState) (results : List ExtractionResult)
    (hne : (newDocs.isEmpty || targetColumns.isEmpty) = false)
    (hmiss : (missRequestsForPairs cts newDocs targetColumns s).isEmpty = false)
    (hrem : remote (ndRequest cts newDocs targetColumns s) = .ok results) :
    extractForNewDocuments cts remote newDocs targetColumns s =
      ⟨markCellsDone (newDocs.map Doc.id) (targetColumns.map Column.id)
         (ndState4 cts newDocs targetColumns s results),
       [ndState1 newDocs targetColumns s, ndState2 cts newDocs targetColumns s,
        ndState3 cts newDocs targetColumns s results, ndState4 cts newDocs targetColumns s results,
        markCellsDone (newDocs.map Doc.id) (targetColumns.map Column.id)
          (ndState4 cts newDocs targetColumns s results)],
       [ndRequest cts newDocs targetColumns s],
       []⟩ := by
  unfold extractForNewDocuments
  rw [if_neg (by rw [hne]; exact Bool.false_ne_true)]
  dsimp only
  rw [if_neg (by rw [hmiss]; exact Bool.false_ne_true)]
  rw [show remote ⟨(missRequestsForPairs cts newDocs targetColumns s).map Prod.fst,
    dedupFirst ((missRequestsForPairs cts newDocs targetColumns s).flatMap Prod.snd), cts⟩
      = .ok results from hrem]
  rfl

theorem isSome_of_not_isNone {α : Type} {o : Option α} (h : ¬ o.isNone = true) :
    o.isSome = true := by
  cases o <;> simp_all

theorem not_isNone_of_isSome {α : Type} {o : Option α} (h : o.isSome = true) :
    ¬ o.isNone = true := by
  cases o <;> simp_all

theorem markCellsLoading_true {docIds colIds : List String} {d c : String} (s : ExtState)
    (hd : d ∈ docIds) (hc : c ∈ colIds) :
    (markCellsLoading docIds colIds s).loading d c = true := by
  unfold markCellsLoading
  dsimp only
  rw [if_pos (by simp [hd, hc])]

theorem markCellsDone_false {docIds colIds : List String} {d c : String} (s : ExtState)
    (hd : d ∈ docIds) (hc : c ∈ colIds) :
    (markCellsDone docIds colIds s).loading d c = false := by
  unfold markCellsDone
  dsimp only
  rw [if_pos (by simp [hd, hc])]

theorem mem_missDocsForColumn {documents : List Doc} {cts : List CustomType} {col : Column}
    {s : ExtState} {doc : Doc} :
    doc ∈ missDocsForColumn documents cts col s ↔
      doc ∈ documents ∧
      (s.cache (createExtractionCacheKey doc.id col.id doc.text col cts)).isNone = true := by
  unfold missDocsForColumn
  rw [List.mem_filter]

theorem missDocsForColumn_eq_nil {documents : List Doc} {cts : List CustomType} {col : Column}
    {s : ExtState} :
    missDocsForColumn documents cts col s = [] ↔
      ∀ doc ∈ documents,
        (s.cache (createExtractionCacheKey doc.id col.id doc.text col cts)).isSome = true := by
  unfold missDocsForColumn
  rw [List.filter_eq_nil_iff]
  constructor
  · intro h doc hd
    exact isSome_of_not_isNone (h doc hd)
  · intro h doc hd
    exact not_isNone_of_isSome (h doc hd)

theorem mem_dedupFirstAux {α : Type} [DecidableEq α] :
    ∀ (l seen : List α) (x : α), x ∈ dedupFirstAux seen l ↔ x ∈ l ∧ x ∉ seen := by
  intro l
  induction l with
  | nil => intro seen x; simp [dedupFirstAux]
  | cons a as ih =>
    intro seen x
    unfold dedupFirstAux
    by_cases ha : a ∈ seen
    · rw [if_pos ha, ih]
      constructor
      · rintro ⟨h1, h2⟩
        exact ⟨List.mem_cons_of_mem a h1, h2⟩
      · rintro ⟨h1, h2⟩
        rcases List.mem_cons.mp h1 with rfl | h1
        · exact absurd ha h2
        · exact ⟨h1, h2⟩
    · rw [if_neg ha]
      constructor
      · intro h
        rcases List.mem_cons.mp h with rfl | h
        · exact ⟨List.mem_cons_self _ _, ha⟩
        · rw [ih] at h
          exact ⟨List.mem_cons_of_mem a h.1, fun hs => h.2 (List.mem_cons_of_mem a hs)⟩
      · rintro ⟨h1, h2⟩
        rcases List.mem_cons.mp h1 with rfl | h1
        · exact List.mem_cons_self _ _
        · by_cases hxa : x = a
          · subst hxa
            exact List.mem_cons_self _ _
          · refine List.mem_cons_of_mem a ?_
            rw [ih]
            exact ⟨h1, fun hs => (List.mem_cons.mp hs).elim hxa h2⟩

theorem mem_dedupFirst {α : Type} [DecidableEq α] {l : List α} {x : α} :
    x ∈ dedupFirst l ↔ x ∈ l := by
  unfold dedupFirst
  rw [mem_dedupFirstAux]
  simp

theorem mem_missRequestsForPairs {cts : List CustomType} {newDocs : List Doc}
    {targetColumns : List Column} {s : ExtState} {q : Doc × List Column} :
    q ∈ missRequestsForPairs cts newDocs targetColumns s ↔
      q.1 ∈ newDocs ∧
      q.2 = targetColumns.filter (fun col =>
        (s.cache (createExtractionCacheKey q.1.id col.id q.1.text col cts)).isNone) ∧
      q.2 ≠ [] := by
  unfold missRequestsForPairs
  rw [List.mem_filterMap]
  constructor
  · rintro ⟨d0, hd0, hbody⟩
    dsimp only at hbody
    by_cases hif : (targetColumns.filter (fun col =>
        (s.cache (createExtractionCacheKey d0.id col.id d0.text col cts)).isNone)).isEmpty = true
    · rw [if_pos hif] at hbody
      cases hbody
    · rw [if_neg hif] at hbody
      cases hbody
      exact ⟨hd0, rfl, fun hnil => hif (List.isEmpty_iff.mpr hnil)⟩
  · rintro ⟨h1, h2, h3⟩
    refine ⟨q.1, h1, ?_⟩
    dsimp only
    rw [← h2, if_neg (fun hempty => h3 (List.isEmpty_iff.mp hempty))]

theorem mem_ndRequest_documents {cts : List CustomType} {newDocs : List Doc}
    {targetColumns : List Column} {s : ExtState} {doc : Doc} :
    doc ∈ (missRequestsForPairs cts newDocs targetColumns s).map Prod.fst ↔
      doc ∈ newDocs ∧ ∃ c ∈ targetColumns,
        (s.cache (createExtractionCacheKey doc.id c.id doc.text c cts)).isNone = true := by
  rw [List.mem_map]
  constructor
  · rintro ⟨q, hq, rfl⟩
    rw [mem_missRequestsForPairs] at hq
    obtain ⟨h1, h2, h3⟩ := hq
    refine ⟨h1, ?_⟩
    obtain ⟨c, hc⟩ := List.exists_mem_of_ne_nil q.2 h3
    rw [h2] at hc
    rw [List.mem_filter] at hc
    exact ⟨c, hc.1, hc.2⟩
  · rintro ⟨h1, c, hc, hcache⟩
    refine ⟨(doc, targetColumns.filter (fun col =>
      (s.cache (createExtractionCacheKey doc.id col.id doc.text col cts)).isNone)), ?_, rfl⟩
    rw [mem_missRequestsForPairs]
    refine ⟨h1, rfl, ?_⟩
    exact List.ne_nil_of_mem (List.mem_filter.mpr ⟨hc, hcache⟩)

theorem mem_ndRequest_columns {cts : List CustomType} {newDocs : List Doc}
    {targetColumns : List Column} {s : ExtState} {c : Column} :
    c ∈ dedupFirst ((missRequestsForPairs cts newDocs targetColumns s).flatMap Prod.snd) ↔
      c ∈ targetColumns ∧ ∃ doc ∈ newDocs,
        (s.cache (createExtractionCacheKey doc.id c.id doc.text c cts)).isNone = true := by
  rw [mem_dedupFirst, List.mem_flatMap]
  constructor
  · rintro ⟨q, hq, hc⟩
    rw [mem_missRequestsForPairs] at hq
    obtain ⟨h1, h2, _⟩ := hq
    rw [h2, List.mem_filter] at hc
    exact ⟨hc.1, q.1, h1, hc.2⟩
  · rintro ⟨hc, doc, hdoc, hcache⟩
    refine ⟨(doc, targetColumns.filter (fun col =>
      (s.cache (createExtractionCacheKey doc.id col.id doc.text col cts)).isNone)), ?_, ?_⟩
    · rw [mem_missRequestsForPairs]
      exact ⟨hdoc, rfl, List.ne_nil_of_mem (List.mem_filter.mpr ⟨hc, hcache⟩)⟩
    · exact List.mem_filter.mpr ⟨hc, hcache⟩

theorem missRequestsForPairs_eq_nil {cts : List CustomType} {newDocs : List Doc}
    {targetColumns : List Column} {s : ExtState} :
    missRequestsForPairs cts newDocs targetColumns s = [] ↔
      ∀ doc ∈ newDocs, ∀ c ∈ targetColumns,
        (s.cache (createExtractionCacheKey doc.id c.id doc.text c cts)).isSome = true := by
  constructor
  · intro h doc hdoc c hc
    by_cases hcache : (s.cache (createExtractionCacheKey doc.id c.id doc.text c cts)).isNone = true
    · exfalso
      have hmem : doc ∈ (missRequestsForPairs cts newDocs targetColumns s).map Prod.fst :=
        mem_ndRequest_documents.mpr ⟨hdoc, c, hc, hcache⟩
      rw [h] at hmem
      exact absurd hmem (List.not_mem_nil doc)
    · exact isSome_of_not_isNone hcache
  · intro h
    by_cases hnil : missRequestsForPairs cts newDocs targetColumns s = []
    · exact hnil
    · exfalso
      obtain ⟨q, hq⟩ := List.exists_mem_of_ne_nil _ hnil
      rw [mem_missRequestsForPairs] at hq
      obtain ⟨h1, h2, h3⟩ := hq
      obtain ⟨c, hc⟩ := List.exists_mem_of_ne_nil q.2 h3
      rw [h2, List.mem_filter] at hc
      exact not_isNone_of_isSome (h q.1 h1 c hc.1) hc.2

/-- The page-level state mutated by the custom-type handlers. -/
structure PageState where
  columns : List Column
  customTypes : List CustomType
  ext : ExtState

/-- Predicate for a column that references the custom type of this name
(source: c.type.kind === custom and c.type.typeName === name). -/
def referencesType (name : String) (c : Column) : Bool :=
  match c.type with
  | .custom tn => tn == name
  | .base _ => false

/-- The synchronous part of handleUpdateCustomType, decomposed into its
sequential phases: the state after all cleanupColumnState calls, the state
after the type set is replaced, and the state at the instant the deferred
re-extraction loop starts (after the column references are rewritten); the
extractTargets field lists the columns for which extractForNewColumn is then
invoked, in order. -/
structure UpdateTypeRun where
  afterCleanup : PageState
  afterTypeReplace : PageState
  preExtract : PageState
  extractTargets : List Column

/-- handleUpdateCustomType from page.tsx (the part up to the point where the
deferred extractForNewColumn calls fire). -/
def handleUpdateCustomType (updatedType : CustomType) (originalName : String)
    (p : PageState) : UpdateTypeRun :=
  let affectedColumns := p.columns.filter (referencesType originalName)
  let ext1 := affectedColumns.foldl (fun e c => cleanupColumnState c.id e) p.ext
  let s1 : PageState := { p with ext := ext1 }
  let s2 : PageState :=
    { s1 with customTypes := p.customTypes.map (fun t => if t.name = originalName then updatedType else t) }
  let updatedColumns := affectedColumns.map (fun c => { c with type := ColumnType.custom updatedType.name })
  let s3 : PageState :=
    { s2 with columns := p.columns.map (fun c =>
        match updatedColumns.find? (fun uc => uc.id == c.id) with
        | some uc => uc
        | none => c) }
  ⟨s1, s2, s3, updatedColumns⟩

/-- The outcome of the remove-type flow: the alert raised (if any) and the
resulting page state. -/
structure RemoveTypeRun where
  alerts : List String
  columns : List Column
  customTypes : List CustomType
  ext : ExtState

/-- ManageTypesDialog.handleRemove combined with the onRemove callback of the
extractor page: reject with an alert when some column references the type,
otherwise filter the type out of the custom-type set. -/
def handleRemoveType (typeName : String) (p : PageState) : RemoveTypeRun :=
  if p.columns.any (referencesType typeName) then
    ⟨["Cannot remove type \"" ++ typeName ++ "\" because it is currently being used by one or more columns."],
      p.columns, p.customTypes, p.ext⟩
  else
    ⟨[], p.columns, p.customTypes.filter (fun t => t.name != typeName), p.ext⟩

/-- Lookup in a JSON object entry list: the value of the first entry with this
key (JS object keys are unique, so the first entry is the entry). -/
def entryLookup : List (String × Json) → String → Option Json
  | [], _ => none
  | (k0, v0) :: rest, k => if k0 = k then some v0 else entryLookup rest k

/-- Lookup of a key inside a JSON object value. -/
def jLookup (j : Json) (k : String) : Option Json :=
  match j with
  | .obj entries => entryLookup entries k
  | _ => none

/-- JS object property assignment on an entry list: replace the value in
place when the key exists, otherwise append the new entry. -/
def objInsert : List (String × Json) → String → Json → List (String × Json)
  | [], k, v => [(k, v)]
  | (k0, v0) :: rest, k, v =>
    if k0 = k then (k0, v) :: rest else (k0, v0) :: objInsert rest k v

/-- The JSON-schema name of the scalar type produced for a base type. -/
def scalarTypeName : BaseType → String
  | .text => "string"
  | .number => "number"
  | .date => "string"
  | .boolean => "boolean"

/-- baseTypeToJsonSchema from the extractor route: a nullable scalar schema,
with a format marker for dates and an optional description appended by the
withDescription wrapper. -/
def baseTypeToJsonSchema (baseType : BaseType) (description : Option String) : Json :=
  let base : List (String × Json) :=
    match baseType with
    | .text => [("type", Json.arr [Json.str "string", Json.str "null"])]
    | .number => [("type", Json.arr [Json.str "number", Json.str "null"])]
    | .date => [("type", Json.arr [Json.str "string", Json.str "null"]), ("format", Json.str "date")]
    | .boolean => [("type", Json.arr [Json.str "boolean", Json.str "null"])]
  match description with
  | some d => Json.obj (base ++ [("description", Json.str d)])
  | none => Json.obj base

/-- The error message thrown for a dangling custom-type reference. -/
def unknownTypeMsg (typeName : String) : String :=
  "Unknown custom type: " ++ typeName

/-- The attribute-properties object built by the loop of buildCustomTypeSchema. -/
def customTypeProperties (t : CustomType) : List (String × Json) :=
  t.attributes.foldl
    (fun acc attr => objInsert acc attr.name (baseTypeToJsonSchema attr.type (some attr.description))) []

/-- The strict object schema built by buildCustomTypeSchema for a resolved
custom type. -/
def customSchemaJson (t : CustomType) : Json :=
  Json.obj
    [("type", Json.str "object"),
     ("description", Json.str t.description),
     ("additionalProperties", Json.bool false),
     ("properties", Json.obj (customTypeProperties t)),
     ("required", Json.arr ((customTypeProperties t).map (fun p => Json.str p.fst)))]

/-- buildCustomTypeSchema from the extractor route: resolve the named custom
type (first match) or throw, then build a strict object schema over its
attributes. -/
def buildCustomTypeSchema (typeName : String) (customTypes : List CustomType) :
    Except String Json :=
  match customTypes.find? (fun ct => ct.name == typeName) with
  | none => .error (unknownTypeMsg typeName)
  | some t => .ok (customSchemaJson t)

/-- The array wrapper applied to a column schema for cardinality many. -/
def arrayWrap (description : String) (schema : Json) : Json :=
  Json.obj
    [("type", Json.str "array"),
     ("description", Json.str description),
     ("items", schema)]

/-- The element schema of a column before the cardinality wrapper: nullable
base scalar, or the referenced custom-type object schema (which can throw). -/
def columnElementSchema (customTypes : List CustomType) (col : Column) : Except String Json :=
  match col.type with
  | .base bt => Except.ok (baseTypeToJsonSchema bt (some col.description))
  | .custom tn => buildCustomTypeSchema tn customTypes

/-- The per-column schema computed by the loop body of
buildExtractionResultSchema: base or custom element schema, wrapped in an
array schema for cardinality many; a thrown UnknownTypeError propagates. -/
def columnSchema (customTypes : List CustomType) (col : Column) : Except String Json :=
  match columnElementSchema customTypes col with
  | .error e => .error e
  | .ok schema =>
    match col.cardinality with
    | .many => .ok (arrayWrap col.description schema)
    | .one => .ok schema

/-- The properties accumulation loop of buildExtractionResultSchema. -/
def buildResultProperties (customTypes : List CustomType) :
    List Column → List (String × Json) → Except String (List (String × Json))
  | [], acc => .ok acc
  | col :: rest, acc =>
    match columnSchema customTypes col with
    | .error e => .error e
    | .ok schema => buildResultProperties customTypes rest (objInsert acc col.id schema)

/-- buildExtractionResultSchema from the extractor route: one property per
column id, strict object, every property required. -/
def buildExtractionResultSchema (columns : List Column) (customTypes : List CustomType) :
    Except String Json :=
  match buildResultProperties customTypes columns [] with
  | .error e => .error e
  | .ok properties =>
    .ok (Json.obj
      [("type", Json.str "object"),
       ("additionalProperties", Json.bool false),
       ("properties", Json.obj properties),
       ("required", Json.arr (properties.map (fun p => Json.str p.fst)))])

/-- The literal name of a base type as it appears in the source and in the
instruction text. -/
def baseTypeWord : BaseType → String
  | .text => "text"
  | .number => "number"
  | .date => "date"
  | .boolean => "boolean"

/-- buildInstructionPrompt from the extractor route. -/
def buildInstructionPrompt (columns : List Column) (customTypes : List CustomType) : String :=
  let header :=
    ["Extract the requested fields from the document text. Use only the information present in the text. If a field is not explicitly present, return null for that field (or an empty array when a list is requested).",
     "Columns to extract (by id):"]
  let cardinalityWord : Cardinality → String
    | .one => "one"
    | .many => "many"
  let body := columns.flatMap (fun col =>
    match col.type with
    | .base bt =>
      ["- " ++ col.id ++ ": " ++ col.name ++ " (" ++ baseTypeWord bt ++ ", " ++
        cardinalityWord col.cardinality ++ ") — " ++ col.description]
    | .custom tn =>
      let head := "- " ++ col.id ++ ": " ++ col.name ++ " (custom type: " ++ tn ++ ", " ++
        cardinalityWord col.cardinality ++ ") — " ++ col.description
      match customTypes.find? (fun ct => ct.name == tn) with
      | some t =>
        head :: ("  Attributes of " ++ t.name ++ ":") ::
          t.attributes.map (fun attr =>
            "  • " ++ attr.name ++ " (" ++ baseTypeWord attr.type ++ ") — " ++ attr.description)
      | none => [head])
  let footer :=
    ["Respond strictly as JSON that conforms to the provided JSON schema. Do not include any extra keys or text."]
  String.intercalate "\n" (header ++ body ++ footer)

/-- Validation of a zod z.string().min(1) field. -/
def strValid (s : String) : Bool := decide (1 ≤ s.length)

/-- Validation of an attribute per AttributeSchema. -/
def attrValid (a : Attribute) : Bool := strValid a.name && strValid a.description

/-- Validation of a custom type per CustomTypeSchema. -/
def customTypeValid (t : CustomType) : Bool :=
  strValid t.name && strValid t.description && !t.attributes.isEmpty && t.attributes.all attrValid

/-- Validation of a column type per ColumnSchema. -/
def columnTypeValid : ColumnType → Bool
  | .base _ => true
  | .custom tn => strValid tn

/-- Validation of a column per ColumnSchema. -/
def columnValid (c : Column) : Bool :=
  strValid c.id && strValid c.name && strValid c.description && columnTypeValid c.type

/-- Validation of a document per DocumentSchema. -/
def docValid (d : Doc) : Bool := strValid d.id && strValid d.name && strValid d.text

/-- Validation of the JSON extraction request per RequestSchema. -/
def requestValid (documents : List Doc) (columns : List Column)
    (customTypes : List CustomType) : Bool :=
  !documents.isEmpty && documents.all docValid &&
  !columns.isEmpty && columns.all columnValid &&
  customTypes.all customTypeValid

/-- One chat-completion call issued by the POST handler for one document. -/
structure LlmCall where
  instruction : String
  schema : Json
  docId : String
  docText : String

/-- A result entry of the POST response body. -/
structure ServerResult where
  documentId : String
  data : Json

/-- The observable outcome of the JSON branch of the POST handler: the
response (error text with status 400, or the parsed results) and the
language-model calls that were issued. -/
structure PostRun where
  response : Except String (List ServerResult)
  llmCalls : List LlmCall

/-- The JSON extraction branch of the POST handler of the extractor route:
validate the body, compile the schema (throwing aborts with the error before
any model call), build the instruction, then one model call per document; an
unparseable model reply degrades to an empty object. -/
def postExtract (documents : List Doc) (columns : List Column)
    (customTypes : List CustomType) (llm : LlmCall → Option Json) : PostRun :=
  if !requestValid documents columns customTypes then
    ⟨.error "Invalid request body", []⟩
  else
    match buildExtractionResultSchema columns customTypes with
    | .error e => ⟨.error e, []⟩
    | .ok schema =>
      let instruction := buildInstructionPrompt columns customTypes
      let calls := documents.map (fun d => LlmCall.mk instruction schema d.id d.text)
      let results := documents.map (fun d =>
        ServerResult.mk d.id ((llm (LlmCall.mk instruction schema d.id d.text)).getD (Json.obj [])))
      ⟨.ok results, calls⟩

theorem applyExtractionResult_ne {m : Matr} {r : ExtractionResult} {d : String}
    (h : d ≠ r.documentId) : applyExtractionResult m r d = m d := by
  unfold applyExtractionResult
  rw [if_neg h]

theorem cellValue_applyExtractionResult {m : Matr} {r : ExtractionResult} {d k : String}
    (h : r.documentId = d → r.data k = none) :
    cellValue (applyExtractionResult m r) d k = cellValue m d k := by
  by_cases hd : d = r.documentId
  · subst hd
    unfold cellValue applyExtractionResult mergeRec
    rw [if_pos rfl]
    dsimp only
    rw [h rfl]
    cases m r.documentId <;> rfl
  · unfold cellValue
    rw [applyExtractionResult_ne hd]

theorem mergeExtractionResults_nil (m : Matr) : mergeExtractionResults [] m = m := rfl

theorem mergeExtractionResults_cons (r : ExtractionResult) (rs : List ExtractionResult)
    (m : Matr) :
    mergeExtractionResults (r :: rs) m = mergeExtractionResults rs (applyExtractionResult m r) := rfl

/-- Claim C3: mergeExtractionResults only sets or overwrites, for each
document in the incoming list, the column keys present in its incoming data
rows; any (document, key) cell for which no incoming row of that document
carries the key keeps exactly its previous value, and the rows of documents
that appear in no incoming result are unchanged as whole rows. -/
theorem c3_merge_non_destructive (newResults : List ExtractionResult) (m : Matr) (d k : String)
    (h : ∀ r ∈ newResults, r.documentId = d → r.data k = none) :
    cellValue (mergeExtractionResults newResults m) d k = cellValue m d k ∧
    ((∀ r ∈ newResults, r.documentId ≠ d) → mergeExtractionResults newResults m d = m d) := by
  induction newResults generalizing m with
  | nil => exact ⟨rfl, fun _ => rfl⟩
  | cons r rs ih =>
    rw [mergeExtractionResults_cons]
    have hr : r.documentId = d → r.data k = none := h r (List.mem_cons_self r rs)
    have hrest : ∀ q ∈ rs, q.documentId = d → q.data k = none :=
      fun q hq => h q (List.mem_cons_of_mem r hq)
    obtain ⟨ihc, ihr⟩ := ih (applyExtractionResult m r) hrest
    refine ⟨?_, ?_⟩
    · rw [ihc, cellValue_applyExtractionResult hr]
    · intro hne
      have hr2 : r.documentId ≠ d := hne r (List.mem_cons_self r rs)
      rw [ihr (fun q hq => hne q (List.mem_cons_of_mem r hq)),
        applyExtractionResult_ne (fun hh => hr2 hh.symm)]

/-- Incoming result row fixture used by the C3 witness: document d1 with
only key a present. -/
def c3exampleResult : ExtractionResult :=
  ⟨"d1", fun k => if k = "a" then some (Json.str "x") else none⟩

/-- Matrix fixture used by the C3 witness: d1 holds key b with an old value. -/
def c3exampleMatrix : Matr :=
  fun d => if d = "d1" then some (fun k => if k = "b" then some (Json.str "old") else none) else none

/-- Witness for C3 at a concrete merge: one incoming row for document d1
carrying only key a; key b of d1 keeps its old value and document d2 keeps
its whole row. -/
theorem c3_merge_non_destructive_witness :
    (∀ r ∈ [c3exampleResult], r.documentId = "d1" → r.data "b" = none) ∧
    cellValue (mergeExtractionResults [c3exampleResult] c3exampleMatrix) "d1" "b" =
      cellValue c3exampleMatrix "d1" "b" ∧
    ((∀ r ∈ [c3exampleResult], r.documentId ≠ "d2") →
      mergeExtractionResults [c3exampleResult] c3exampleMatrix "d2" = c3exampleMatrix "d2") := by
  have h1 : ∀ r ∈ [c3exampleResult], r.documentId = "d1" → r.data "b" = none := by
    intro r hr _
    rw [List.mem_singleton] at hr
    subst hr
    rfl
  have h2 : ∀ r ∈ [c3exampleResult], r.documentId = "d2" → r.data "b" = none := by
    intro r hr hh
    rw [List.mem_singleton] at hr
    subst hr
    exact absurd hh (by decide)
  exact ⟨h1, (c3_merge_non_destructive [c3exampleResult] c3exampleMatrix "d1" "b" h1).1,
    (c3_merge_non_destructive [c3exampleResult] c3exampleMatrix "d2" "b" h2).2⟩

theorem wrap32_bounds (n : Int) : -(2 ^ 31) ≤ wrap32 n ∧ wrap32 n < 2 ^ 31 := by
  unfold wrap32
  have h1 : (0 : Int) ≤ (n + 2 ^ 31) % 2 ^ 32 := Int.emod_nonneg _ (by norm_num)
  have h2 : (n + 2 ^ 31) % 2 ^ 32 < 2 ^ 32 := Int.emod_lt_of_pos _ (by norm_num)
  omega

theorem foldl_hashStep_bounds (l : List Nat) :
    ∀ h : Int, -(2 ^ 31) ≤ h → h < 2 ^ 31 →
      -(2 ^ 31) ≤ l.foldl hashStep h ∧ l.foldl hashStep h < 2 ^ 31 := by
  induction l with
  | nil => exact fun h h1 h2 => ⟨h1, h2⟩
  | cons c rest ih =>
    intro h _ _
    have hb := wrap32_bounds (wrap32 (h * 2 ^ 5) - h + c)
    exact ih (hashStep h c) hb.1 hb.2

theorem hashValue_bounds (s : String) :
    -(2 ^ 31) ≤ hashValue s ∧ hashValue s < 2 ^ 31 :=
  foldl_hashStep_bounds (utf16CodeUnits s) 0 (by norm_num) (by norm_num)

theorem hashStep_pair_collision (h : Int) :
    hashStep (hashStep h 65) 97 = hashStep (hashStep h 66) 66 := by
  unfold hashStep wrap32
  omega

theorem utf16_append (a b : String) :
    utf16CodeUnits (a ++ b) = utf16CodeUnits a ++ utf16CodeUnits b := by
  unfold utf16CodeUnits
  rw [String.data_append, List.flatMap_append]

theorem hashValue_mid_swap (pre mid1 mid2 post : String)
    (hmid : ∀ h : Int, (utf16CodeUnits mid1).foldl hashStep h = (utf16CodeUnits mid2).foldl hashStep h) :
    hashValue (pre ++ mid1 ++ post) = hashValue (pre ++ mid2 ++ post) := by
  unfold hashValue
  rw [utf16_append, utf16_append, utf16_append, utf16_append,
    List.foldl_append, List.foldl_append, List.foldl_append, List.foldl_append, hmid]

theorem cacheKeyInput_as_mid (d c t : String) (col : Column) (cts : List CustomType) :
    cacheKeyInput d c t col cts =
      (d ++ "|" ++ c ++ "|") ++ t ++ ("|" ++ serializeColumn col ++ "|" ++ serializeCustomTypes cts) := by
  unfold cacheKeyInput
  simp only [String.append_assoc]

/-- The rolling hash collides on the document texts Aa and BB whatever the
other cache-key inputs are, because 31 times 65 plus 97 equals 31 times 66
plus 66. -/
theorem cacheKey_collision_Aa_BB (d c : String) (col : Column) (cts : List CustomType) :
    createExtractionCacheKey d c "Aa" col cts = createExtractionCacheKey d c "BB" col cts := by
  unfold createExtractionCacheKey simpleHash
  have hAa : utf16CodeUnits "Aa" = [65, 97] := by decide
  have hBB : utf16CodeUnits "BB" = [66, 66] := by decide
  have hmid : ∀ h : Int, (utf16CodeUnits "Aa").foldl hashStep h = (utf16CodeUnits "BB").foldl hashStep h := by
    intro h
    rw [hAa, hBB]
    exact hashStep_pair_collision h
  rw [cacheKeyInput_as_mid, cacheKeyInput_as_mid,
    hashValue_mid_swap _ "Aa" "BB" _ hmid]

/-- Claim C10: every simpleHash output (hence every cache key) is the base-36
representation of a natural number bounded by 2 to the 31, computed through
the 32-bit wrapping rolling hash; the fingerprint space therefore has at most
2 to the 31 plus 1 values, and distinct input tuples with equal fingerprints
exist (a concrete collision of the cache key for two different document
texts). -/
theorem c10_fingerprint_range :
    (∀ s : String, ∃ n : Nat, n ≤ 2 ^ 31 ∧ simpleHash s = natToBase36 n) ∧
    (∀ docId colId docText col cts, ∃ n : Nat, n ≤ 2 ^ 31 ∧
      createExtractionCacheKey docId colId docText col cts = natToBase36 n) ∧
    (∃ S : Finset String, S.card ≤ 2 ^ 31 + 1 ∧ ∀ s : String, simpleHash s ∈ S) ∧
    (("Aa" : String) ≠ "BB" ∧
      createExtractionCacheKey "d1" "c1" "Aa" (Column.mk "c1" "Name" "d" (ColumnType.base BaseType.text) Cardinality.one) [] =
      createExtractionCacheKey "d1" "c1" "BB" (Column.mk "c1" "Name" "d" (ColumnType.base BaseType.text) Cardinality.one) []) := by
  have key : ∀ s : String, ∃ n : Nat, n ≤ 2 ^ 31 ∧ simpleHash s = natToBase36 n := by
    intro s
    refine ⟨(hashValue s).natAbs, ?_, rfl⟩
    have hb := hashValue_bounds s
    omega
  refine ⟨key, fun docId colId docText col cts => key _, ?_,
    by decide, cacheKey_collision_Aa_BB "d1" "c1" _ []⟩
  refine ⟨(Finset.range (2 ^ 31 + 1)).image natToBase36, ?_, ?_⟩
  · calc ((Finset.range (2 ^ 31 + 1)).image natToBase36).card
        ≤ (Finset.range (2 ^ 31 + 1)).card := Finset.card_image_le
      _ = 2 ^ 31 + 1 := Finset.card_range _
  · intro s
    obtain ⟨n, hn, hs⟩ := key s
    rw [hs]
    exact Finset.mem_image_of_mem natToBase36 (Finset.mem_range.mpr (by omega))

theorem mid_inj {pre post x y : String} (h : pre ++ x ++ post = pre ++ y ++ post) : x = y := by
  have hd := congrArg String.data h
  simp only [String.data_append] at hd
  exact String.ext (List.append_cancel_left (List.append_cancel_right hd))

theorem suffix_inj {pre x y : String} (h : pre ++ x = pre ++ y) : x = y := by
  have hd := congrArg String.data h
  simp only [String.data_append] at hd
  exact String.ext (List.append_cancel_left hd)

theorem cacheKeyInput_as_mid_col (d c t : String) (col : Column) (cts : List CustomType) :
    cacheKeyInput d c t col cts =
      (d ++ "|" ++ c ++ "|" ++ t ++ "|") ++ serializeColumn col ++ ("|" ++ serializeCustomTypes cts) := by
  unfold cacheKeyInput
  simp only [String.append_assoc]

theorem cacheKeyInput_as_suffix_cts (d c t : String) (col : Column) (cts : List CustomType) :
    cacheKeyInput d c t col cts =
      (d ++ "|" ++ c ++ "|" ++ t ++ "|" ++ serializeColumn col ++ "|") ++ serializeCustomTypes cts := by
  unfold cacheKeyInput
  simp only [String.append_assoc]

/-- Counterexample to claim C7: for fixed documentId, columnId, column and
customTypes, the two distinct document texts Aa and BB produce the same
fingerprint, so changing documentText does not always change the
fingerprint. -/
theorem c7_fingerprint_counterexample :
    ("Aa" : String) ≠ "BB" ∧
    createExtractionCacheKey "d1" "c1" "Aa"
        (Column.mk "c1" "Name" "desc" (ColumnType.base BaseType.text) Cardinality.one)
        [CustomType.mk "Person" "pd" [Attribute.mk "age" "ad" BaseType.number]] =
      createExtractionCacheKey "d1" "c1" "BB"
        (Column.mk "c1" "Name" "desc" (ColumnType.base BaseType.text) Cardinality.one)
        [CustomType.mk "Person" "pd" [Attribute.mk "age" "ad" BaseType.number]] :=
  ⟨by decide, cacheKey_collision_Aa_BB "d1" "c1" _ _⟩

/-- Claim C7 as amended: the fingerprint is a deterministic function of its
five inputs, and for fixed (documentId, columnId) changing documentText, the
serialized column, or the serialized custom-type set each independently
changes the concatenated hash input string; the fingerprint itself however
need not change, since the rolling hash collides on distinct input strings. -/
theorem c7_fingerprint_amended :
    (∀ docId colId docText col cts,
      createExtractionCacheKey docId colId docText col cts =
        createExtractionCacheKey docId colId docText col cts) ∧
    (∀ docId colId col cts (t1 t2 : String), t1 ≠ t2 →
      cacheKeyInput docId colId t1 col cts ≠ cacheKeyInput docId colId t2 col cts) ∧
    (∀ docId colId docText cts col1 col2, serializeColumn col1 ≠ serializeColumn col2 →
      cacheKeyInput docId colId docText col1 cts ≠ cacheKeyInput docId colId docText col2 cts) ∧
    (∀ docId colId docText col cts1 cts2, serializeCustomTypes cts1 ≠ serializeCustomTypes cts2 →
      cacheKeyInput docId colId docText col cts1 ≠ cacheKeyInput docId colId docText col cts2) ∧
    (∃ t1 t2 : String, t1 ≠ t2 ∧
      createExtractionCacheKey "d1" "c1" t1
          (Column.mk "c1" "Name" "desc" (ColumnType.base BaseType.text) Cardinality.one) [] =
        createExtractionCacheKey "d1" "c1" t2
          (Column.mk "c1" "Name" "desc" (ColumnType.base BaseType.text) Cardinality.one) []) := by
  refine ⟨fun _ _ _ _ _ => rfl, ?_, ?_, ?_, "Aa", "BB", by decide,
    cacheKey_collision_Aa_BB "d1" "c1" _ []⟩
  · intro docId colId col cts t1 t2 hne heq
    rw [cacheKeyInput_as_mid, cacheKeyInput_as_mid] at heq
    exact hne (mid_inj heq)
  · intro docId colId docText cts col1 col2 hne heq
    rw [cacheKeyInput_as_mid_col, cacheKeyInput_as_mid_col] at heq
    exact hne (mid_inj heq)
  · intro docId colId docText col cts1 cts2 hne heq
    rw [cacheKeyInput_as_suffix_cts, cacheKeyInput_as_suffix_cts] at heq
    exact hne (suffix_inj heq)

/-- Witness for the amended C7 at concrete inputs: distinct document texts,
distinct serialized columns and distinct serialized custom-type sets each
yield distinct hash input strings. -/
theorem c7_fingerprint_amended_witness :
    (("x" : String) ≠ "y" ∧
      cacheKeyInput "d" "c" "x" (Column.mk "c1" "N" "D" (ColumnType.base BaseType.text) Cardinality.one) [] ≠
        cacheKeyInput "d" "c" "y" (Column.mk "c1" "N" "D" (ColumnType.base BaseType.text) Cardinality.one) []) ∧
    (serializeColumn (Column.mk "c1" "N" "D" (ColumnType.base BaseType.text) Cardinality.one) ≠
        serializeColumn (Column.mk "c1" "M" "D" (ColumnType.base BaseType.text) Cardinality.one) ∧
      cacheKeyInput "d" "c" "t" (Column.mk "c1" "N" "D" (ColumnType.base BaseType.text) Cardinality.one) [] ≠
        cacheKeyInput "d" "c" "t" (Column.mk "c1" "M" "D" (ColumnType.base BaseType.text) Cardinality.one) []) ∧
    (serializeCustomTypes [] ≠ serializeCustomTypes [CustomType.mk "T" "td" []] ∧
      cacheKeyInput "d" "c" "t" (Column.mk "c1" "N" "D" (ColumnType.base BaseType.text) Cardinality.one) [] ≠
        cacheKeyInput "d" "c" "t" (Column.mk "c1" "N" "D" (ColumnType.base BaseType.text) Cardinality.one)
          [CustomType.mk "T" "td" []]) :=
  ⟨⟨by decide, c7_fingerprint_amended.2.1 "d" "c" _ [] "x" "y" (by decide)⟩,
   ⟨by decide, c7_fingerprint_amended.2.2.1 "d" "c" "t" [] _ _ (by decide)⟩,
   ⟨by decide, c7_fingerprint_amended.2.2.2.1 "d" "c" "t" _ [] _ (by decide)⟩⟩

/-- Boolean prefix test on character lists. -/
def chPrefix : List Char → List Char → Bool
  | [], _ => true
  | _ :: _, [] => false
  | a :: as, b :: bs => a == b && chPrefix as bs

/-- Boolean infix test on character lists. -/
def chInfix (needle : List Char) : List Char → Bool
  | [] => chPrefix needle []
  | b :: bs => chPrefix needle (b :: bs) || chInfix needle bs

/-- Whether the needle occurs as a contiguous substring of the hay. -/
def containsSubstr (hay needle : String) : Bool :=
  chInfix needle.data hay.data

/-- The alert text raised when removing a custom type that is in use. -/
def typeInUseMsg (typeName : String) : String :=
  "Cannot remove type \"" ++ typeName ++ "\" because it is currently being used by one or more columns."

/-- Counterexample to claim C8: removing the type Person while the column
Owner (id col_1) references it is rejected, but the alert names neither the
dependent column name Owner nor its id col_1, so the error does not name any
dependent column. -/
theorem c8_remove_counterexample :
    referencesType "Person" (Column.mk "col_1" "Owner" "od" (ColumnType.custom "Person") Cardinality.one) = true ∧
    (handleRemoveType "Person" (PageState.mk
        [Column.mk "col_1" "Owner" "od" (ColumnType.custom "Person") Cardinality.one]
        [CustomType.mk "Person" "pd" [Attribute.mk "age" "ad" BaseType.number]]
        (ExtState.mk (fun _ => none) (fun _ _ => false) (fun _ => none)))).alerts =
      ["Cannot remove type \"Person\" because it is currently being used by one or more columns."] ∧
    containsSubstr "Cannot remove type \"Person\" because it is currently being used by one or more columns." "Owner" = false ∧
    containsSubstr "Cannot remove type \"Person\" because it is currently being used by one or more columns." "col_1" = false :=
  ⟨rfl, rfl, by decide, by decide⟩

/-- Claim C8 as amended: removal of a custom type with at least one dependent
column is rejected with the in-use alert, which names the type (not a
dependent column), and the customTypes set, columns, matrix and loading set
are left unmodified; removal of a type with no dependent columns removes
exactly the entries with that name and changes nothing else. -/
theorem c8_remove_amended (typeName : String) (p : PageState) :
    (p.columns.any (referencesType typeName) = true →
      (handleRemoveType typeName p).alerts = [typeInUseMsg typeName] ∧
      (handleRemoveType typeName p).columns = p.columns ∧
      (handleRemoveType typeName p).customTypes = p.customTypes ∧
      (handleRemoveType typeName p).ext = p.ext) ∧
    (p.columns.any (referencesType typeName) = false →
      (handleRemoveType typeName p).alerts = [] ∧
      (handleRemoveType typeName p).customTypes = p.customTypes.filter (fun t => t.name != typeName) ∧
      (∀ t : CustomType, t ∈ (handleRemoveType typeName p).customTypes ↔
        t ∈ p.customTypes ∧ t.name ≠ typeName) ∧
      (handleRemoveType typeName p).columns = p.columns ∧
      (handleRemoveType typeName p).ext = p.ext) := by
  constructor
  · intro h
    unfold handleRemoveType
    rw [if_pos h]
    exact ⟨rfl, rfl, rfl, rfl⟩
  · intro h
    unfold handleRemoveType
    rw [if_neg (by rw [h]; exact Bool.false_ne_true)]
    refine ⟨rfl, rfl, ?_, rfl, rfl⟩
    intro t
    simp [List.mem_filter, bne_iff_ne]

/-- Page-state fixture with a column depending on the type Person. -/
def c8exUsed : PageState :=
  PageState.mk
    [Column.mk "col_1" "Owner" "od" (ColumnType.custom "Person") Cardinality.one]
    [CustomType.mk "Person" "pd" [Attribute.mk "age" "ad" BaseType.number]]
    (ExtState.mk (fun _ => none) (fun _ _ => false) (fun _ => none))

/-- Page-state fixture with no column depending on the type Person. -/
def c8exFree : PageState :=
  PageState.mk
    [Column.mk "col_2" "Total" "td" (ColumnType.base BaseType.number) Cardinality.one]
    [CustomType.mk "Person" "pd" [Attribute.mk "age" "ad" BaseType.number]]
    (ExtState.mk (fun _ => none) (fun _ _ => false) (fun _ => none))

/-- Witness for the amended C8 at concrete inputs: the rejected removal with
a live dependent and the successful removal without dependents. -/
theorem c8_remove_amended_witness :
    (c8exUsed.columns.any (referencesType "Person") = true ∧
      ((handleRemoveType "Person" c8exUsed).alerts = [typeInUseMsg "Person"] ∧
       (handleRemoveType "Person" c8exUsed).columns = c8exUsed.columns ∧
       (handleRemoveType "Person" c8exUsed).customTypes = c8exUsed.customTypes ∧
       (handleRemoveType "Person" c8exUsed).ext = c8exUsed.ext)) ∧
    (c8exFree.columns.any (referencesType "Person") = false ∧
      ((handleRemoveType "Person" c8exFree).alerts = [] ∧
       (handleRemoveType "Person" c8exFree).customTypes =
         c8exFree.customTypes.filter (fun t => t.name != "Person") ∧
       (∀ t : CustomType, t ∈ (handleRemoveType "Person" c8exFree).customTypes ↔
         t ∈ c8exFree.customTypes ∧ t.name ≠ "Person") ∧
       (handleRemoveType "Person" c8exFree).columns = c8exFree.columns ∧
       (handleRemoveType "Person" c8exFree).ext = c8exFree.ext)) :=
  ⟨⟨by decide, (c8_remove_amended "Person" c8exUsed).1 (by decide)⟩,
   ⟨by decide, (c8_remove_amended "Person" c8exFree).2 (by decide)⟩⟩

theorem columnElementSchema_error_form {cts : List CustomType} {col : Column} {e : String}
    (h : columnElementSchema cts col = .error e) :
    ∃ tn, col.type = ColumnType.custom tn ∧ e = unknownTypeMsg tn ∧
      cts.find? (fun ct => ct.name == tn) = none := by
  unfold columnElementSchema at h
  split at h
  · cases h
  · next tn heq =>
    unfold buildCustomTypeSchema at h
    split at h
    · next hf =>
      cases h
      exact ⟨tn, heq, rfl, hf⟩
    · cases h

theorem columnSchema_error_form {cts : List CustomType} {col : Column} {e : String}
    (h : columnSchema cts col = .error e) :
    ∃ tn, col.type = ColumnType.custom tn ∧ e = unknownTypeMsg tn ∧
      cts.find? (fun ct => ct.name == tn) = none := by
  unfold columnSchema at h
  split at h
  · next heq =>
    cases h
    exact columnElementSchema_error_form heq
  · split at h <;> cases h

theorem buildResultProperties_error_form {cts : List CustomType} :
    ∀ (cols : List Column) (acc : List (String × Json)) (e : String),
      buildResultProperties cts cols acc = .error e →
      ∃ tn, e = unknownTypeMsg tn ∧ cts.find? (fun ct => ct.name == tn) = none := by
  intro cols
  induction cols with
  | nil => intro acc e h; cases h
  | cons col rest ih =>
    intro acc e h
    unfold buildResultProperties at h
    cases hc : columnSchema cts col with
    | error e0 =>
      rw [hc] at h
      cases h
      obtain ⟨tn, _, hmsg, hf⟩ := columnSchema_error_form hc
      exact ⟨tn, hmsg, hf⟩
    | ok schema =>
      rw [hc] at h
      exact ih _ e h

theorem buildResultProperties_error_of_unknown {cts : List CustomType} :
    ∀ (cols : List Column) (acc : List (String × Json)),
      (∃ col ∈ cols, ∃ tn, col.type = ColumnType.custom tn ∧
        cts.find? (fun ct => ct.name == tn) = none) →
      ∃ e, buildResultProperties cts cols acc = .error e := by
  intro cols
  induction cols with
  | nil =>
    intro acc h
    obtain ⟨col, hmem, _⟩ := h
    exact absurd hmem (List.not_mem_nil col)
  | cons col rest ih =>
    intro acc h
    obtain ⟨c, hmem, tn, hty, hf⟩ := h
    rcases List.mem_cons.mp hmem with hcol | hrest
    · subst hcol
      have helem : columnElementSchema cts c = buildCustomTypeSchema tn cts := by
        unfold columnElementSchema
        rw [hty]
      have hbuild : buildCustomTypeSchema tn cts = .error (unknownTypeMsg tn) := by
        unfold buildCustomTypeSchema
        rw [hf]
      have hcs : columnSchema cts c = .error (unknownTypeMsg tn) := by
        unfold columnSchema
        rw [helem, hbuild]
      refine ⟨unknownTypeMsg tn, ?_⟩
      unfold buildResultProperties
      rw [hcs]
    · cases hcs : columnSchema cts col with
      | error e0 =>
        refine ⟨e0, ?_⟩
        unfold buildResultProperties
        rw [hcs]
      | ok schema =>
        obtain ⟨e, he⟩ := ih (objInsert acc col.id schema) ⟨c, hrest, tn, hty, hf⟩
        refine ⟨e, ?_⟩
        unfold buildResultProperties
        rw [hcs]
        exact he

theorem find?_name_eq_none_iff {cts : List CustomType} {tn : String} :
    cts.find? (fun ct => ct.name == tn) = none ↔ ∀ ct ∈ cts, ct.name ≠ tn := by
  rw [List.find?_eq_none]
  constructor
  · intro h ct hct
    have := h ct hct
    simpa using this
  · intro h ct hct
    simpa using h ct hct

/-- Claim C6: for a request accepted by the body validation, if some column
references a custom type whose name is absent from customTypes, the batch
fails with the synchronous UnknownTypeError of the schema compiler and no
call to the remote language-model service is issued. -/
theorem c6_unknown_type_short_circuit (documents : List Doc) (columns : List Column)
    (customTypes : List CustomType) (llm : LlmCall → Option Json)
    (hvalid : requestValid documents columns customTypes = true)
    (hunknown : ∃ col ∈ columns, ∃ tn, col.type = ColumnType.custom tn ∧
      ∀ ct ∈ customTypes, ct.name ≠ tn) :
    ∃ tn, (postExtract documents columns customTypes llm).response =
        Except.error (unknownTypeMsg tn) ∧
      (∀ ct ∈ customTypes, ct.name ≠ tn) ∧
      (postExtract documents columns customTypes llm).llmCalls = [] := by
  obtain ⟨col, hmem, tn0, hty, hfresh⟩ := hunknown
  obtain ⟨e, he⟩ := buildResultProperties_error_of_unknown columns []
    ⟨col, hmem, tn0, hty, find?_name_eq_none_iff.mpr hfresh⟩
  obtain ⟨tn, hmsg, hf⟩ := buildResultProperties_error_form columns [] e he
  have hschema : buildExtractionResultSchema columns customTypes = .error e := by
    unfold buildExtractionResultSchema
    rw [he]
  refine ⟨tn, ?_, find?_name_eq_none_iff.mp hf, ?_⟩ <;>
  · unfold postExtract
    rw [hvalid]
    simp only [Bool.not_true, Bool.false_eq_true, if_false, hschema, hmsg]

/-- Witness for C6: a valid one-document request with a column referencing
the missing custom type Ghost fails with the UnknownTypeError and issues no
model call. -/
theorem c6_unknown_type_short_circuit_witness :
    requestValid [Doc.mk "d1" "doc" "text"]
        [Column.mk "c1" "N" "D" (ColumnType.custom "Ghost") Cardinality.one] [] = true ∧
    (∃ col ∈ [Column.mk "c1" "N" "D" (ColumnType.custom "Ghost") Cardinality.one],
      ∃ tn, col.type = ColumnType.custom tn ∧ ∀ ct ∈ ([] : List CustomType), ct.name ≠ tn) ∧
    (∃ tn, (postExtract [Doc.mk "d1" "doc" "text"]
        [Column.mk "c1" "N" "D" (ColumnType.custom "Ghost") Cardinality.one] []
        (fun _ => none)).response = Except.error (unknownTypeMsg tn) ∧
      (∀ ct ∈ ([] : List CustomType), ct.name ≠ tn) ∧
      (postExtract [Doc.mk "d1" "doc" "text"]
        [Column.mk "c1" "N" "D" (ColumnType.custom "Ghost") Cardinality.one] []
        (fun _ => none)).llmCalls = []) :=
  ⟨by decide,
   ⟨Column.mk "c1" "N" "D" (ColumnType.custom "Ghost") Cardinality.one,
     List.mem_singleton.mpr rfl, "Ghost", rfl, fun ct hct => absurd hct (List.not_mem_nil ct)⟩,
   c6_unknown_type_short_circuit _ _ _ _ (by decide)
     ⟨Column.mk "c1" "N" "D" (ColumnType.custom "Ghost") Cardinality.one,
       List.mem_singleton.mpr rfl, "Ghost", rfl, fun ct hct => absurd hct (List.not_mem_nil ct)⟩⟩

theorem objInsert_of_not_mem {acc : List (String × Json)} {k : String} {v : Json}
    (h : k ∉ acc.map Prod.fst) : objInsert acc k v = acc ++ [(k, v)] := by
  induction acc with
  | nil => rfl
  | cons e rest ih =>
    obtain ⟨k0, v0⟩ := e
    simp only [List.map_cons, List.mem_cons] at h
    push_neg at h
    unfold objInsert
    rw [if_neg (fun hh => h.1 hh.symm), ih h.2]
    rfl

theorem entryLookup_cons (k0 : String) (v0 : Json) (rest : List (String × Json)) (k : String) :
    entryLookup ((k0, v0) :: rest) k = if k0 = k then some v0 else entryLookup rest k := rfl

theorem entryLookup_append_left {a b : List (String × Json)} {k : String} {v : Json}
    (h : entryLookup a k = some v) : entryLookup (a ++ b) k = some v := by
  induction a with
  | nil => cases h
  | cons e rest ih =>
    obtain ⟨k0, v0⟩ := e
    rw [List.cons_append]
    rw [entryLookup_cons] at h ⊢
    by_cases hk : k0 = k
    · rw [if_pos hk] at h ⊢
      exact h
    · rw [if_neg hk] at h ⊢
      exact ih h

theorem entryLookup_append_right {a b : List (String × Json)} {k : String}
    (h : entryLookup a k = none) : entryLookup (a ++ b) k = entryLookup b k := by
  induction a with
  | nil => rfl
  | cons e rest ih =>
    obtain ⟨k0, v0⟩ := e
    rw [entryLookup_cons] at h
    rw [List.cons_append, entryLookup_cons]
    by_cases hk : k0 = k
    · rw [if_pos hk] at h
      cases h
    · rw [if_neg hk] at h ⊢
      exact ih h

theorem entryLookup_eq_none {acc : List (String × Json)} {k : String}
    (h : k ∉ acc.map Prod.fst) : entryLookup acc k = none := by
  induction acc with
  | nil => rfl
  | cons e rest ih =>
    obtain ⟨k0, v0⟩ := e
    simp only [List.map_cons, List.mem_cons] at h
    push_neg at h
    rw [entryLookup_cons, if_neg (fun hh => h.1 hh.symm)]
    exact ih h.2

theorem foldl_objInsert_spec {α : Type} (key : α → String) (val : α → Json) :
    ∀ (items : List α) (acc : List (String × Json)),
      (acc.map Prod.fst ++ items.map key).Nodup →
      ((items.foldl (fun a x => objInsert a (key x) (val x)) acc).map Prod.fst
          = acc.map Prod.fst ++ items.map key) ∧
      (∀ k v, entryLookup acc k = some v →
        entryLookup (items.foldl (fun a x => objInsert a (key x) (val x)) acc) k = some v) ∧
      (∀ x ∈ items,
        entryLookup (items.foldl (fun a x => objInsert a (key x) (val x)) acc) (key x)
          = some (val x)) := by
  intro items
  induction items with
  | nil =>
    intro acc _
    refine ⟨by simp, fun k v h => h, ?_⟩
    intro x hx
    exact absurd hx (List.not_mem_nil x)
  | cons x rest ih =>
    intro acc hnd
    have hknot : key x ∉ acc.map Prod.fst := by
      rw [List.nodup_append] at hnd
      intro hmem
      exact hnd.2.2 hmem (List.mem_cons_self _ _)
    have hacc : objInsert acc (key x) (val x) = acc ++ [(key x, val x)] :=
      objInsert_of_not_mem hknot
    have hnd' : ((acc ++ [(key x, val x)]).map Prod.fst ++ rest.map key).Nodup := by
      simp only [List.map_append, List.map_cons, List.map_nil, List.append_assoc,
        List.singleton_append]
      simpa [List.map_cons] using hnd
    obtain ⟨ihkeys, ihpres, ihlook⟩ := ih (acc ++ [(key x, val x)]) hnd'
    have hfold : (x :: rest).foldl (fun a y => objInsert a (key y) (val y)) acc
        = rest.foldl (fun a y => objInsert a (key y) (val y)) (acc ++ [(key x, val x)]) := by
      simp only [List.foldl_cons, hacc]
    refine ⟨?_, ?_, ?_⟩
    · rw [hfold, ihkeys]
      simp [List.append_assoc]
    · intro k v h
      rw [hfold]
      exact ihpres k v (entryLookup_append_left h)
    · intro y hy
      rcases List.mem_cons.mp hy with rfl | hyr
      · rw [hfold]
        refine ihpres (key y) (val y) ?_
        rw [entryLookup_append_right (entryLookup_eq_none hknot)]
        unfold entryLookup
        rw [if_pos rfl]
      · rw [hfold]
        exact ihlook y hyr

/-- The schema produced for one column when its compilation succeeds; the
error branch is a placeholder that the proofs rule out via resolvability. -/
def columnSchemaValue (customTypes : List CustomType) (col : Column) : Json :=
  match columnSchema customTypes col with
  | .ok s => s
  | .error _ => Json.null

theorem columnSchema_base (cts : List CustomType) {col : Column} {bt : BaseType}
    (hty : col.type = ColumnType.base bt) :
    columnSchema cts col =
      .ok (match col.cardinality with
           | .many => arrayWrap col.description (baseTypeToJsonSchema bt (some col.description))
           | .one => baseTypeToJsonSchema bt (some col.description)) := by
  unfold columnSchema columnElementSchema
  rw [hty]
  cases col.cardinality <;> rfl

theorem columnElementSchema_custom_eq {cts : List CustomType} {col : Column} {tn : String}
    (hty : col.type = ColumnType.custom tn) :
    columnElementSchema cts col = buildCustomTypeSchema tn cts := by
  unfold columnElementSchema
  rw [hty]

theorem columnSchema_custom (cts : List CustomType) {col : Column} {tn : String}
    {t : CustomType} (hty : col.type = ColumnType.custom tn)
    (hf : cts.find? (fun ct => ct.name == tn) = some t) :
    columnSchema cts col =
      .ok (match col.cardinality with
           | .many => arrayWrap col.description (customSchemaJson t)
           | .one => customSchemaJson t) := by
  have helem : columnElementSchema cts col = .ok (customSchemaJson t) := by
    rw [columnElementSchema_custom_eq hty]
    unfold buildCustomTypeSchema
    rw [hf]
  unfold columnSchema
  rw [helem]
  cases col.cardinality <;> rfl

theorem columnSchema_ok_of_resolved {cts : List CustomType} {col : Column}
    (h : ∀ tn, col.type = ColumnType.custom tn →
      ∃ t, cts.find? (fun ct => ct.name == tn) = some t) :
    ∃ s, columnSchema cts col = .ok s := by
  cases hty : col.type with
  | base bt => exact ⟨_, columnSchema_base cts hty⟩
  | custom tn =>
    obtain ⟨t, hf⟩ := h tn hty
    exact ⟨_, columnSchema_custom cts hty hf⟩

theorem buildResultProperties_eq_fold {cts : List CustomType} :
    ∀ (cols : List Column) (acc : List (String × Json)),
      (∀ col ∈ cols, ∃ s, columnSchema cts col = .ok s) →
      buildResultProperties cts cols acc =
        .ok (cols.foldl (fun a col => objInsert a col.id (columnSchemaValue cts col)) acc) := by
  intro cols
  induction cols with
  | nil => intro acc _; rfl
  | cons col rest ih =>
    intro acc h
    obtain ⟨s, hs⟩ := h col (List.mem_cons_self col rest)
    have hval : columnSchemaValue cts col = s := by
      unfold columnSchemaValue
      rw [hs]
    unfold buildResultProperties
    rw [hs]
    simp only [List.foldl_cons, hval]
    exact ih _ (fun c hc => h c (List.mem_cons_of_mem col hc))

/-- The per-attribute nullable-scalar shape claimed by the specification: the
type field of the property is the two-element array with the scalar name and
null. -/
def nullableScalarProp (bt : BaseType) (p : Json) : Prop :=
  jLookup p "type" = some (Json.arr [Json.str (scalarTypeName bt), Json.str "null"])

/-- A JSON-schema type field admitting null: a type array containing null. -/
def nullableObjectType (p : Json) : Prop :=
  ∃ l, jLookup p "type" = some (Json.arr l) ∧ Json.str "null" ∈ l

/-- A JSON-schema type field that is exactly the string object (no null). -/
def plainObjectType (p : Json) : Prop :=
  jLookup p "type" = some (Json.str "object")

/-- An object schema keyed by the attribute names of the custom type, each
attribute a nullable scalar of its base type (the spec wording). -/
def attrObjectShape (t : CustomType) (p : Json) : Prop :=
  ∃ entries, jLookup p "properties" = some (Json.obj entries) ∧
    entries.map Prod.fst = t.attributes.map Attribute.name ∧
    ∀ a ∈ t.attributes, ∃ pa, entryLookup entries a.name = some pa ∧ nullableScalarProp a.type pa

/-- The per-column schema shape described by the specification, parameterized
by the requirement on the type field of custom-type object schemas. -/
def columnShapeWith (objType : Json → Prop) (cts : List CustomType) :
    ColumnType → Cardinality → Json → Prop
  | .base bt, .one, p => nullableScalarProp bt p
  | .base bt, .many, p =>
      jLookup p "type" = some (Json.str "array") ∧
      ∃ item, jLookup p "items" = some item ∧ nullableScalarProp bt item
  | .custom tn, .one, p =>
      ∃ t, cts.find? (fun ct => ct.name == tn) = some t ∧ objType p ∧ attrObjectShape t p
  | .custom tn, .many, p =>
      jLookup p "type" = some (Json.str "array") ∧
      ∃ t item, cts.find? (fun ct => ct.name == tn) = some t ∧
        jLookup p "items" = some item ∧ objType item ∧ attrObjectShape t item

/-- The shape stated by claim C4: custom-type object schemas are nullable. -/
def claimColumnShape (cts : List CustomType) : ColumnType → Cardinality → Json → Prop :=
  columnShapeWith nullableObjectType cts

/-- The shape the code actually produces: custom-type object schemas have the
plain type object, nullability exists only at the attribute level. -/
def codeColumnShape (cts : List CustomType) : ColumnType → Cardinality → Json → Prop :=
  columnShapeWith plainObjectType cts

theorem nullableScalar_of_base (bt : BaseType) (d : Option String) :
    nullableScalarProp bt (baseTypeToJsonSchema bt d) := by
  cases bt <;> cases d <;> rfl

theorem customSchemaJson_shape (t : CustomType)
    (hnd : (t.attributes.map Attribute.name).Nodup) :
    plainObjectType (customSchemaJson t) ∧ attrObjectShape t (customSchemaJson t) := by
  refine ⟨rfl, customTypeProperties t, rfl, ?_, ?_⟩
  · have h := (foldl_objInsert_spec Attribute.name
      (fun a => baseTypeToJsonSchema a.type (some a.description)) t.attributes []
      (by simpa using hnd)).1
    simpa using h
  · intro a ha
    have h := (foldl_objInsert_spec Attribute.name
      (fun a => baseTypeToJsonSchema a.type (some a.description)) t.attributes []
      (by simpa using hnd)).2.2 a ha
    exact ⟨baseTypeToJsonSchema a.type (some a.description), h,
      nullableScalar_of_base a.type (some a.description)⟩

theorem codeColumnShape_of_value (cts : List CustomType) (col : Column)
    (hres : ∀ tn, col.type = ColumnType.custom tn →
      ∃ t, cts.find? (fun ct => ct.name == tn) = some t)
    (hattrs : ∀ t ∈ cts, (t.attributes.map Attribute.name).Nodup) :
    codeColumnShape cts col.type col.cardinality (columnSchemaValue cts col) := by
  cases hty : col.type with
  | base bt =>
    have hval : columnSchemaValue cts col =
        (match col.cardinality with
         | .many => arrayWrap col.description (baseTypeToJsonSchema bt (some col.description))
         | .one => baseTypeToJsonSchema bt (some col.description)) := by
      unfold columnSchemaValue
      rw [columnSchema_base cts hty]
    cases hc : col.cardinality <;> rw [hc] at hval <;> rw [hval]
    · exact nullableScalar_of_base bt (some col.description)
    · exact ⟨rfl, baseTypeToJsonSchema bt (some col.description), rfl,
        nullableScalar_of_base bt (some col.description)⟩
  | custom tn =>
    obtain ⟨t, hf⟩ := hres tn hty
    have hnd : (t.attributes.map Attribute.name).Nodup :=
      hattrs t (List.mem_of_find?_eq_some hf)
    obtain ⟨hobj, hshape⟩ := customSchemaJson_shape t hnd
    have hval : columnSchemaValue cts col =
        (match col.cardinality with
         | .many => arrayWrap col.description (customSchemaJson t)
         | .one => customSchemaJson t) := by
      unfold columnSchemaValue
      rw [columnSchema_custom cts hty hf]
    cases hc : col.cardinality <;> rw [hc] at hval <;> rw [hval]
    · exact ⟨t, hf, hobj, hshape⟩
    · exact ⟨rfl, t, customSchemaJson t, hf, rfl, hobj, hshape⟩

/-- Claim C4 as amended: for columns with distinct ids whose custom
references all resolve (and custom types with distinct attribute names), the
compiled schema has exactly one property per column id; the shape is the
nullable scalar for Base/one, the array of nullable scalars for Base/many,
and for Custom columns a strict NON-nullable object schema (type object)
keyed by the attribute names, each attribute a nullable scalar, wrapped in an
array schema for cardinality many. -/
theorem c4_schema_shape_amended (columns : List Column) (cts : List CustomType)
    (hids : (columns.map Column.id).Nodup)
    (hres : ∀ col ∈ columns, ∀ tn, col.type = ColumnType.custom tn →
      ∃ t, cts.find? (fun ct => ct.name == tn) = some t)
    (hattrs : ∀ t ∈ cts, (t.attributes.map Attribute.name).Nodup) :
    ∃ properties,
      buildExtractionResultSchema columns cts = Except.ok (Json.obj
        [("type", Json.str "object"),
         ("additionalProperties", Json.bool false),
         ("properties", Json.obj properties),
         ("required", Json.arr (properties.map (fun p => Json.str p.fst)))]) ∧
      properties.map Prod.fst = columns.map Column.id ∧
      ∀ col ∈ columns, ∃ p, entryLookup properties col.id = some p ∧
        codeColumnShape cts col.type col.cardinality p := by
  have hok : ∀ col ∈ columns, ∃ s, columnSchema cts col = .ok s :=
    fun col hc => columnSchema_ok_of_resolved (hres col hc)
  have hfold := buildResultProperties_eq_fold columns [] hok
  obtain ⟨hkeys, _, hlook⟩ := foldl_objInsert_spec Column.id
    (fun col => columnSchemaValue cts col) columns [] (by simpa using hids)
  refine ⟨columns.foldl (fun a col => objInsert a col.id (columnSchemaValue cts col)) [],
    ?_, by simpa using hkeys, ?_⟩
  · unfold buildExtractionResultSchema
    rw [hfold]
  · intro col hc
    exact ⟨columnSchemaValue cts col, hlook col hc,
      codeColumnShape_of_value cts col (hres col hc) hattrs⟩

/-- Counterexample to claim C4 as stated: for the single Custom/one column c1
referencing Person, the produced property schema has type exactly the string
object; it is not a nullable object (no type array containing null), so the
claimed Custom/one shape fails. -/
theorem c4_schema_shape_counterexample :
    ∃ properties p,
      buildExtractionResultSchema
          [Column.mk "c1" "Owner" "od" (ColumnType.custom "Person") Cardinality.one]
          [CustomType.mk "Person" "pd" [Attribute.mk "age" "ad" BaseType.number]] =
        Except.ok (Json.obj
          [("type", Json.str "object"),
           ("additionalProperties", Json.bool false),
           ("properties", Json.obj properties),
           ("required", Json.arr (properties.map (fun q => Json.str q.fst)))]) ∧
      entryLookup properties "c1" = some p ∧
      jLookup p "type" = some (Json.str "object") ∧
      ¬ claimColumnShape
          [CustomType.mk "Person" "pd" [Attribute.mk "age" "ad" BaseType.number]]
          (ColumnType.custom "Person") Cardinality.one p := by
  refine ⟨_, _, rfl, rfl, rfl, ?_⟩
  intro h
  obtain ⟨t, _, ⟨l, hl, _⟩, _⟩ := h
  have : jLookup (customSchemaJson (CustomType.mk "Person" "pd" [Attribute.mk "age" "ad" BaseType.number]))
      "type" = some (Json.str "object") := rfl
  rw [this] at hl
  cases hl

/-- Witness for the amended C4 on a concrete column set covering all four
type-cardinality combinations. -/
theorem c4_schema_shape_amended_witness :
    (([Column.mk "b1" "B1" "d1" (ColumnType.base BaseType.text) Cardinality.one,
       Column.mk "b2" "B2" "d2" (ColumnType.base BaseType.date) Cardinality.many,
       Column.mk "u1" "U1" "d3" (ColumnType.custom "Person") Cardinality.one,
       Column.mk "u2" "U2" "d4" (ColumnType.custom "Person") Cardinality.many].map Column.id).Nodup ∧
     (∀ t ∈ [CustomType.mk "Person" "pd" [Attribute.mk "age" "ad" BaseType.number]],
       (t.attributes.map Attribute.name).Nodup)) ∧
    (∃ properties,
      buildExtractionResultSchema
          [Column.mk "b1" "B1" "d1" (ColumnType.base BaseType.text) Cardinality.one,
           Column.mk "b2" "B2" "d2" (ColumnType.base BaseType.date) Cardinality.many,
           Column.mk "u1" "U1" "d3" (ColumnType.custom "Person") Cardinality.one,
           Column.mk "u2" "U2" "d4" (ColumnType.custom "Person") Cardinality.many]
          [CustomType.mk "Person" "pd" [Attribute.mk "age" "ad" BaseType.number]] =
        Except.ok (Json.obj
          [("type", Json.str "object"),
           ("additionalProperties", Json.bool false),
           ("properties", Json.obj properties),
           ("required", Json.arr (properties.map (fun p => Json.str p.fst)))]) ∧
      properties.map Prod.fst =
        [Column.mk "b1" "B1" "d1" (ColumnType.base BaseType.text) Cardinality.one,
         Column.mk "b2" "B2" "d2" (ColumnType.base BaseType.date) Cardinality.many,
         Column.mk "u1" "U1" "d3" (ColumnType.custom "Person") Cardinality.one,
         Column.mk "u2" "U2" "d4" (ColumnType.custom "Person") Cardinality.many].map Column.id ∧
      ∀ col ∈ [Column.mk "b1" "B1" "d1" (ColumnType.base BaseType.text) Cardinality.one,
           Column.mk "b2" "B2" "d2" (ColumnType.base BaseType.date) Cardinality.many,
           Column.mk "u1" "U1" "d3" (ColumnType.custom "Person") Cardinality.one,
           Column.mk "u2" "U2" "d4" (ColumnType.custom "Person") Cardinality.many],
        ∃ p, entryLookup properties col.id = some p ∧
          codeColumnShape [CustomType.mk "Person" "pd" [Attribute.mk "age" "ad" BaseType.number]]
            col.type col.cardinality p) := by
  have hres : ∀ col ∈ [Column.mk "b1" "B1" "d1" (ColumnType.base BaseType.text) Cardinality.one,
      Column.mk "b2" "B2" "d2" (ColumnType.base BaseType.date) Cardinality.many,
      Column.mk "u1" "U1" "d3" (ColumnType.custom "Person") Cardinality.one,
      Column.mk "u2" "U2" "d4" (ColumnType.custom "Person") Cardinality.many],
      ∀ tn, col.type = ColumnType.custom tn →
        ∃ t, [CustomType.mk "Person" "pd" [Attribute.mk "age" "ad" BaseType.number]].find?
          (fun ct => ct.name == tn) = some t := by
    intro col hc tn hty
    fin_cases hc
    · cases hty
    · cases hty
    · injection hty with h
      subst h
      exact ⟨_, rfl⟩
    · injection hty with h
      subst h
      exact ⟨_, rfl⟩
  exact ⟨⟨by decide, by decide⟩,
    c4_schema_shape_amended _ _ (by decide) hres (by decide)⟩

/-- Claim C1: in both orchestrator entry points, every targeted pair whose
fingerprint is in the cache is merged into the matrix from the cached value
(the cache-merge state is reached in the trace, merging all hits over the
pre-call matrix) and is not counted as a miss: every issued request carries
exactly the miss documents and the miss columns, so a hit contributes no
document and no column beyond those required by actual misses; and when every
targeted pair is a hit, no request is issued and the loading flags of all
targeted pairs are cleared. -/
theorem c1_cache_short_circuit :
    (∀ (documents : List Doc) (cts : List CustomType)
       (remote : ExtractRequest → Except String (List ExtractionResult))
       (col : Column) (s : ExtState),
      documents.isEmpty = false →
      (∃ st ∈ (extractForNewColumn documents cts remote col s).trace,
        st.resultsByDoc =
          mergeExtractionResults (hitResultsForColumn documents cts col s) s.resultsByDoc) ∧
      (∀ req ∈ (extractForNewColumn documents cts remote col s).requests,
        req.documents = missDocsForColumn documents cts col s ∧
        req.columns = [col] ∧
        ∀ doc ∈ documents,
          (s.cache (createExtractionCacheKey doc.id col.id doc.text col cts)).isSome = true →
            doc ∉ req.documents) ∧
      ((∀ doc ∈ documents,
          (s.cache (createExtractionCacheKey doc.id col.id doc.text col cts)).isSome = true) →
        (extractForNewColumn documents cts remote col s).requests = [] ∧
        ∀ doc ∈ documents,
          (extractForNewColumn documents cts remote col s).state.loading doc.id col.id = false)) ∧
    (∀ (cts : List CustomType)
       (remote : ExtractRequest → Except String (List ExtractionResult))
       (newDocs : List Doc) (targetColumns : List Column) (s : ExtState),
      (newDocs.isEmpty || targetColumns.isEmpty) = false →
      (∃ st ∈ (extractForNewDocuments cts remote newDocs targetColumns s).trace,
        st.resultsByDoc =
          mergeExtractionResults (hitResultsForPairs cts newDocs targetColumns s) s.resultsByDoc) ∧
      (∀ req ∈ (extractForNewDocuments cts remote newDocs targetColumns s).requests,
        (∀ doc : Doc, doc ∈ req.documents ↔ doc ∈ newDocs ∧ ∃ c ∈ targetColumns,
          (s.cache (createExtractionCacheKey doc.id c.id doc.text c cts)).isNone = true) ∧
        (∀ c : Column, c ∈ req.columns ↔ c ∈ targetColumns ∧ ∃ doc ∈ newDocs,
          (s.cache (createExtractionCacheKey doc.id c.id doc.text c cts)).isNone = true)) ∧
      ((∀ doc ∈ newDocs, ∀ c ∈ targetColumns,
          (s.cache (createExtractionCacheKey doc.id c.id doc.text c cts)).isSome = true) →
        (extractForNewDocuments cts remote newDocs targetColumns s).requests = [] ∧
        ∀ doc ∈ newDocs, ∀ c ∈ targetColumns,
          (extractForNewDocuments cts remote newDocs targetColumns s).state.loading doc.id c.id = false)) := by
  constructor
  · intro documents cts remote col s hne
    by_cases hm : (missDocsForColumn documents cts col s).isEmpty = true
    · rw [extractForNewColumn_allHit documents cts remote col s hne hm]
      refine ⟨⟨ncState2 documents cts col s, by simp, rfl⟩, ?_, ?_⟩
      · intro req hreq
        exact absurd hreq (List.not_mem_nil req)
      · intro _
        refine ⟨rfl, ?_⟩
        intro doc hdoc
        exact markCellsDone_false _ (List.mem_map_of_mem Doc.id hdoc) (List.mem_singleton.mpr rfl)
    · have hm' : (missDocsForColumn documents cts col s).isEmpty = false := by
        simpa using hm
      have hcontra : (∀ doc ∈ documents,
          (s.cache (createExtractionCacheKey doc.id col.id doc.text col cts)).isSome = true) →
          False := by
        intro hall
        have : (missDocsForColumn documents cts col s).isEmpty = true :=
          List.isEmpty_iff.mpr (missDocsForColumn_eq_nil.mpr hall)
        rw [hm'] at this
        cases this
      have hreqspec : ∀ req, req = ncRequest documents cts col s →
          req.documents = missDocsForColumn documents cts col s ∧
          req.columns = [col] ∧
          ∀ doc ∈ documents,
            (s.cache (createExtractionCacheKey doc.id col.id doc.text col cts)).isSome = true →
              doc ∉ req.documents := by
        rintro req rfl
        refine ⟨rfl, rfl, ?_⟩
        intro doc _ hsome hmem
        exact not_isNone_of_isSome hsome (mem_missDocsForColumn.mp hmem).2
      cases hrem : remote (ncRequest documents cts col s) with
      | ok results =>
        rw [extractForNewColumn_ok documents cts remote col s results hne hm' hrem]
        refine ⟨⟨ncState2 documents cts col s, by simp, rfl⟩, ?_, fun hall => absurd (hcontra hall) id⟩
        intro req hreq
        rw [List.mem_singleton] at hreq
        exact hreqspec req hreq
      | error e =>
        rw [extractForNewColumn_err documents cts remote col s e hne hm' hrem]
        refine ⟨⟨ncState2 documents cts col s, by simp, rfl⟩, ?_, fun hall => absurd (hcontra hall) id⟩
        intro req hreq
        rw [List.mem_singleton] at hreq
        exact hreqspec req hreq
  · intro cts remote newDocs targetColumns s hne
    by_cases hm : (missRequestsForPairs cts newDocs targetColumns s).isEmpty = true
    · rw [extractForNewDocuments_allHit cts remote newDocs targetColumns s hne hm]
      refine ⟨⟨ndState2 cts newDocs targetColumns s, by simp, rfl⟩, ?_, ?_⟩
      · intro req hreq
        exact absurd hreq (List.not_mem_nil req)
      · intro _
        refine ⟨rfl, ?_⟩
        intro doc hdoc c hc
        exact markCellsDone_false _ (List.mem_map_of_mem Doc.id hdoc)
          (List.mem_map_of_mem Column.id hc)
    · have hm' : (missRequestsForPairs cts newDocs targetColumns s).isEmpty = false := by
        simpa using hm
      have hcontra : (∀ doc ∈ newDocs, ∀ c ∈ targetColumns,
          (s.cache (createExtractionCacheKey doc.id c.id doc.text c cts)).isSome = true) →
          False := by
        intro hall
        have : (missRequestsForPairs cts newDocs targetColumns s).isEmpty = true :=
          List.isEmpty_iff.mpr (missRequestsForPairs_eq_nil.mpr hall)
        rw [hm'] at this
        cases this
      have hreqspec : ∀ req, req = ndRequest cts newDocs targetColumns s →
          (∀ doc : Doc, doc ∈ req.documents ↔ doc ∈ newDocs ∧ ∃ c ∈ targetColumns,
            (s.cache (createExtractionCacheKey doc.id c.id doc.text c cts)).isNone = true) ∧
          (∀ c : Column, c ∈ req.columns ↔ c ∈ targetColumns ∧ ∃ doc ∈ newDocs,
            (s.cache (createExtractionCacheKey doc.id c.id doc.text c cts)).isNone = true) := by
        rintro req rfl
        exact ⟨fun doc => mem_ndRequest_documents, fun c => mem_ndRequest_columns⟩
      cases hrem : remote (ndRequest cts newDocs targetColumns s) with
      | ok results =>
        rw [extractForNewDocuments_ok cts remote newDocs targetColumns s results hne hm' hrem]
        refine ⟨⟨ndState2 cts newDocs targetColumns s, by simp, rfl⟩, ?_,
          fun hall => absurd (hcontra hall) id⟩
        intro req hreq
        rw [List.mem_singleton] at hreq
        exact hreqspec req hreq
      | error e =>
        rw [extractForNewDocuments_err cts remote newDocs targetColumns s e hne hm' hrem]
        refine ⟨⟨ndState2 cts newDocs targetColumns s, by simp, rfl⟩, ?_,
          fun hall => absurd (hcontra hall) id⟩
        intro req hreq
        rw [List.mem_singleton] at hreq
        exact hreqspec req hreq

/-- Extractor state fixture in which every fingerprint is cached, used by the
C1 witness so that both orchestrator runs take the all-hit path. -/
def c1exState : ExtState :=
  ⟨fun _ => none, fun _ _ => false, fun _ => some (fun _ => none)⟩

/-- Document fixture for the orchestrator witnesses. -/
def c1exDoc : Doc := ⟨"d1", "doc", "t"⟩

/-- Column fixture for the orchestrator witnesses. -/
def c1exCol : Column := ⟨"c1", "Name", "d", ColumnType.base BaseType.text, Cardinality.one⟩

/-- Witness for C1: a concrete one-document, one-column run of each entry
point with a fully warm cache. -/
theorem c1_cache_short_circuit_witness :
    ([c1exDoc].isEmpty = false ∧
      ((∃ st ∈ (extractForNewColumn [c1exDoc] [] (fun _ => .ok []) c1exCol c1exState).trace,
        st.resultsByDoc =
          mergeExtractionResults (hitResultsForColumn [c1exDoc] [] c1exCol c1exState)
            c1exState.resultsByDoc) ∧
      (∀ req ∈ (extractForNewColumn [c1exDoc] [] (fun _ => .ok []) c1exCol c1exState).requests,
        req.documents = missDocsForColumn [c1exDoc] [] c1exCol c1exState ∧
        req.columns = [c1exCol] ∧
        ∀ doc ∈ [c1exDoc],
          (c1exState.cache (createExtractionCacheKey doc.id c1exCol.id doc.text c1exCol [])).isSome = true →
            doc ∉ req.documents) ∧
      ((∀ doc ∈ [c1exDoc],
          (c1exState.cache (createExtractionCacheKey doc.id c1exCol.id doc.text c1exCol [])).isSome = true) →
        (extractForNewColumn [c1exDoc] [] (fun _ => .ok []) c1exCol c1exState).requests = [] ∧
        ∀ doc ∈ [c1exDoc],
          (extractForNewColumn [c1exDoc] [] (fun _ => .ok []) c1exCol c1exState).state.loading doc.id c1exCol.id = false))) ∧
    (([c1exDoc].isEmpty || [c1exCol].isEmpty) = false ∧
      ((∃ st ∈ (extractForNewDocuments [] (fun _ => .ok []) [c1exDoc] [c1exCol] c1exState).trace,
        st.resultsByDoc =
          mergeExtractionResults (hitResultsForPairs [] [c1exDoc] [c1exCol] c1exState)
            c1exState.resultsByDoc) ∧
      (∀ req ∈ (extractForNewDocuments [] (fun _ => .ok []) [c1exDoc] [c1exCol] c1exState).requests,
        (∀ doc : Doc, doc ∈ req.documents ↔ doc ∈ [c1exDoc] ∧ ∃ c ∈ [c1exCol],
          (c1exState.cache (createExtractionCacheKey doc.id c.id doc.text c [])).isNone = true) ∧
        (∀ c : Column, c ∈ req.columns ↔ c ∈ [c1exCol] ∧ ∃ doc ∈ [c1exDoc],
          (c1exState.cache (createExtractionCacheKey doc.id c.id doc.text c [])).isNone = true)) ∧
      ((∀ doc ∈ [c1exDoc], ∀ c ∈ [c1exCol],
          (c1exState.cache (createExtractionCacheKey doc.id c.id doc.text c [])).isSome = true) →
        (extractForNewDocuments [] (fun _ => .ok []) [c1exDoc] [c1exCol] c1exState).requests = [] ∧
        ∀ doc ∈ [c1exDoc], ∀ c ∈ [c1exCol],
          (extractForNewDocuments [] (fun _ => .ok []) [c1exDoc] [c1exCol] c1exState).state.loading doc.id c.id = false))) :=
  ⟨⟨rfl, c1_cache_short_circuit.1 [c1exDoc] [] (fun _ => .ok []) c1exCol c1exState rfl⟩,
   ⟨rfl, c1_cache_short_circuit.2 [] (fun _ => .ok []) [c1exDoc] [c1exCol] c1exState rfl⟩⟩

/-- Claim C2: when the remote call of either orchestrator entry point fails,
the invocation clears the loading flags of every targeted pair, leaves the
results matrix exactly as it was before the call (the pre-call matrix being
the initial matrix with the cache hits merged), leaves the cache untouched,
surfaces the error alert exactly once, and issues exactly the one request
(no automatic retry). -/
theorem c2_failure_no_partial_application :
    (∀ (documents : List Doc) (cts : List CustomType)
       (remote : ExtractRequest → Except String (List ExtractionResult))
       (col : Column) (s : ExtState) (e : String),
      documents.isEmpty = false →
      (missDocsForColumn documents cts col s).isEmpty = false →
      remote (ncRequest documents cts col s) = .error e →
      (extractForNewColumn documents cts remote col s).state.resultsByDoc =
        mergeExtractionResults (hitResultsForColumn documents cts col s) s.resultsByDoc ∧
      (extractForNewColumn documents cts remote col s).state.cache = s.cache ∧
      (extractForNewColumn documents cts remote col s).alerts = ["Extraction failed: " ++ e] ∧
      (extractForNewColumn documents cts remote col s).requests = [ncRequest documents cts col s] ∧
      (∀ doc ∈ documents,
        (extractForNewColumn documents cts remote col s).state.loading doc.id col.id = false)) ∧
    (∀ (cts : List CustomType)
       (remote : ExtractRequest → Except String (List ExtractionResult))
       (newDocs : List Doc) (targetColumns : List Column) (s : ExtState) (e : String),
      (newDocs.isEmpty || targetColumns.isEmpty) = false →
      (missRequestsForPairs cts newDocs targetColumns s).isEmpty = false →
      remote (ndRequest cts newDocs targetColumns s) = .error e →
      (extractForNewDocuments cts remote newDocs targetColumns s).state.resultsByDoc =
        mergeExtractionResults (hitResultsForPairs cts newDocs targetColumns s) s.resultsByDoc ∧
      (extractForNewDocuments cts remote newDocs targetColumns s).state.cache = s.cache ∧
      (extractForNewDocuments cts remote newDocs targetColumns s).alerts =
        ["Extraction failed: " ++ e] ∧
      (extractForNewDocuments cts remote newDocs targetColumns s).requests =
        [ndRequest cts newDocs targetColumns s] ∧
      (∀ doc ∈ newDocs, ∀ c ∈ targetColumns,
        (extractForNewDocuments cts remote newDocs targetColumns s).state.loading doc.id c.id = false)) := by
  constructor
  · intro documents cts remote col s e hne hmiss hrem
    rw [extractForNewColumn_err documents cts remote col s e hne hmiss hrem]
    refine ⟨rfl, rfl, rfl, rfl, ?_⟩
    intro doc hdoc
    exact markCellsDone_false _ (List.mem_map_of_mem Doc.id hdoc) (List.mem_singleton.mpr rfl)
  · intro cts remote newDocs targetColumns s e hne hmiss hrem
    rw [extractForNewDocuments_err cts remote newDocs targetColumns s e hne hmiss hrem]
    refine ⟨rfl, rfl, rfl, rfl, ?_⟩
    intro doc hdoc c hc
    exact markCellsDone_false _ (List.mem_map_of_mem Doc.id hdoc) (List.mem_map_of_mem Column.id hc)

/-- Extractor state fixture with a fully cold cache, used by the C2 witness
so that both runs take the miss path. -/
def c2exState : ExtState :=
  ⟨fun _ => none, fun _ _ => false, fun _ => none⟩

/-- Witness for C2: concrete one-document, one-column failing runs of both
entry points against an always-failing remote. -/
theorem c2_failure_no_partial_application_witness :
    ([c1exDoc].isEmpty = false ∧
     (missDocsForColumn [c1exDoc] [] c1exCol c2exState).isEmpty = false ∧
     (fun (_ : ExtractRequest) => (Except.error "boom" : Except String (List ExtractionResult)))
       (ncRequest [c1exDoc] [] c1exCol c2exState) = .error "boom" ∧
     ((extractForNewColumn [c1exDoc] [] (fun _ => .error "boom") c1exCol c2exState).state.resultsByDoc =
        mergeExtractionResults (hitResultsForColumn [c1exDoc] [] c1exCol c2exState)
          c2exState.resultsByDoc ∧
      (extractForNewColumn [c1exDoc] [] (fun _ => .error "boom") c1exCol c2exState).state.cache =
        c2exState.cache ∧
      (extractForNewColumn [c1exDoc] [] (fun _ => .error "boom") c1exCol c2exState).alerts =
        ["Extraction failed: " ++ "boom"] ∧
      (extractForNewColumn [c1exDoc] [] (fun _ => .error "boom") c1exCol c2exState).requests =
        [ncRequest [c1exDoc] [] c1exCol c2exState] ∧
      (∀ doc ∈ [c1exDoc],
        (extractForNewColumn [c1exDoc] [] (fun _ => .error "boom") c1exCol c2exState).state.loading
          doc.id c1exCol.id = false))) ∧
    (([c1exDoc].isEmpty || [c1exCol].isEmpty) = false ∧
     (missRequestsForPairs [] [c1exDoc] [c1exCol] c2exState).isEmpty = false ∧
     (fun (_ : ExtractRequest) => (Except.error "boom" : Except String (List ExtractionResult)))
       (ndRequest [] [c1exDoc] [c1exCol] c2exState) = .error "boom" ∧
     ((extractForNewDocuments [] (fun _ => .error "boom") [c1exDoc] [c1exCol] c2exState).state.resultsByDoc =
        mergeExtractionResults (hitResultsForPairs [] [c1exDoc] [c1exCol] c2exState)
          c2exState.resultsByDoc ∧
      (extractForNewDocuments [] (fun _ => .error "boom") [c1exDoc] [c1exCol] c2exState).state.cache =
        c2exState.cache ∧
      (extractForNewDocuments [] (fun _ => .error "boom") [c1exDoc] [c1exCol] c2exState).alerts =
        ["Extraction failed: " ++ "boom"] ∧
      (extractForNewDocuments [] (fun _ => .error "boom") [c1exDoc] [c1exCol] c2exState).requests =
        [ndRequest [] [c1exDoc] [c1exCol] c2exState] ∧
      (∀ doc ∈ [c1exDoc], ∀ c ∈ [c1exCol],
        (extractForNewDocuments [] (fun _ => .error "boom") [c1exDoc] [c1exCol] c2exState).state.loading
          doc.id c.id = false))) :=
  ⟨⟨rfl, rfl, rfl,
    c2_failure_no_partial_application.1 [c1exDoc] [] (fun _ => .error "boom") c1exCol c2exState
      "boom" rfl rfl rfl⟩,
   ⟨rfl, rfl, rfl,
    c2_failure_no_partial_application.2 [] (fun _ => .error "boom") [c1exDoc] [c1exCol] c2exState
      "boom" rfl rfl rfl⟩⟩

/-- Claim C9 as amended: a cell served from a cache hit is marked loading at
the start of the orchestrator invocation together with all targeted cells
(the first trace state has its loading flag set), is populated from the
cached value while still marked loading, never travels the network path (its
document is in no issued request), and its loading flag is cleared by the end
of the invocation. -/
theorem c9_hit_cells_amended (documents : List Doc) (cts : List CustomType)
    (remote : ExtractRequest → Except String (List ExtractionResult)) (col : Column)
    (s : ExtState) (hne : documents.isEmpty = false) :
    ∀ doc ∈ documents,
      (s.cache (createExtractionCacheKey doc.id col.id doc.text col cts)).isSome = true →
      ((extractForNewColumn documents cts remote col s).trace.head? =
          some (ncState1 documents col s) ∧
        (ncState1 documents col s).loading doc.id col.id = true) ∧
      (∃ st ∈ (extractForNewColumn documents cts remote col s).trace,
        st.resultsByDoc =
          mergeExtractionResults (hitResultsForColumn documents cts col s) s.resultsByDoc ∧
        st.loading doc.id col.id = true) ∧
      (extractForNewColumn documents cts remote col s).state.loading doc.id col.id = false ∧
      (∀ req ∈ (extractForNewColumn documents cts remote col s).requests,
        doc ∉ req.documents) := by
  intro doc hdoc hsome
  have hload : (ncState1 documents col s).loading doc.id col.id = true :=
    markCellsLoading_true s (List.mem_map_of_mem Doc.id hdoc) (List.mem_singleton.mpr rfl)
  have hload2 : (ncState2 documents cts col s).loading doc.id col.id = true := hload
  have hnotmiss : doc ∉ missDocsForColumn documents cts col s := fun hmem =>
    not_isNone_of_isSome hsome (mem_missDocsForColumn.mp hmem).2
  have hdone : ∀ st, (markCellsDone (documents.map Doc.id) [col.id] st).loading doc.id col.id = false :=
    fun st => markCellsDone_false st (List.mem_map_of_mem Doc.id hdoc) (List.mem_singleton.mpr rfl)
  by_cases hm : (missDocsForColumn documents cts col s).isEmpty = true
  · rw [extractForNewColumn_allHit documents cts remote col s hne hm]
    exact ⟨⟨rfl, hload⟩, ⟨ncState2 documents cts col s, by simp, rfl, hload2⟩, hdone _,
      fun req hreq => absurd hreq (List.not_mem_nil req)⟩
  · have hm' : (missDocsForColumn documents cts col s).isEmpty = false := by simpa using hm
    cases hrem : remote (ncRequest documents cts col s) with
    | ok results =>
      rw [extractForNewColumn_ok documents cts remote col s results hne hm' hrem]
      refine ⟨⟨rfl, hload⟩, ⟨ncState2 documents cts col s, by simp, rfl, hload2⟩, hdone _, ?_⟩
      intro req hreq
      rw [List.mem_singleton] at hreq
      subst hreq
      exact hnotmiss
    | error e =>
      rw [extractForNewColumn_err documents cts remote col s e hne hm' hrem]
      refine ⟨⟨rfl, hload⟩, ⟨ncState2 documents cts col s, by simp, rfl, hload2⟩, hdone _, ?_⟩
      intro req hreq
      rw [List.mem_singleton] at hreq
      subst hreq
      exact hnotmiss

/-- Extractor state fixture in which every fingerprint is cached, used by the
C9 counterexample and witness. -/
def c9exState : ExtState :=
  ⟨fun _ => none, fun _ _ => false, fun _ => some (fun _ => none)⟩

/-- Document fixture for C9. -/
def c9exDoc : Doc := ⟨"d1", "doc", "t"⟩

/-- Column fixture for C9. -/
def c9exCol : Column := ⟨"c1", "Name", "d", ColumnType.base BaseType.text, Cardinality.one⟩

/-- Counterexample to claim C9 as stated: in a run where the single targeted
pair is a cache hit (no request is issued), the pair does enter the loading
state: some trace state has its loading flag set. -/
theorem c9_counterexample :
    (c9exState.cache (createExtractionCacheKey c9exDoc.id c9exCol.id c9exDoc.text c9exCol [])).isSome = true ∧
    ((extractForNewColumn [c9exDoc] [] (fun _ => .ok []) c9exCol c9exState).requests).isEmpty = true ∧
    (((extractForNewColumn [c9exDoc] [] (fun _ => .ok []) c9exCol c9exState).trace.map
        (fun st => st.loading "d1" "c1")).contains true) = true := by
  refine ⟨rfl, ?_, ?_⟩ <;>
  · rw [extractForNewColumn_allHit [c9exDoc] [] (fun _ => .ok []) c9exCol c9exState rfl rfl]
    rfl

/-- Witness for the amended C9 at the all-hit fixture run. -/
theorem c9_hit_cells_amended_witness :
    ([c9exDoc].isEmpty = false ∧ c9exDoc ∈ [c9exDoc] ∧
      (c9exState.cache (createExtractionCacheKey c9exDoc.id c9exCol.id c9exDoc.text c9exCol [])).isSome = true) ∧
    (((extractForNewColumn [c9exDoc] [] (fun _ => .ok []) c9exCol c9exState).trace.head? =
        some (ncState1 [c9exDoc] c9exCol c9exState) ∧
      (ncState1 [c9exDoc] c9exCol c9exState).loading c9exDoc.id c9exCol.id = true) ∧
     (∃ st ∈ (extractForNewColumn [c9exDoc] [] (fun _ => .ok []) c9exCol c9exState).trace,
        st.resultsByDoc =
          mergeExtractionResults (hitResultsForColumn [c9exDoc] [] c9exCol c9exState)
            c9exState.resultsByDoc ∧
        st.loading c9exDoc.id c9exCol.id = true) ∧
     (extractForNewColumn [c9exDoc] [] (fun _ => .ok []) c9exCol c9exState).state.loading
        c9exDoc.id c9exCol.id = false ∧
     (∀ req ∈ (extractForNewColumn [c9exDoc] [] (fun _ => .ok []) c9exCol c9exState).requests,
        c9exDoc ∉ req.documents)) :=
  ⟨⟨rfl, List.mem_singleton.mpr rfl, rfl⟩,
   c9_hit_cells_amended [c9exDoc] [] (fun _ => .ok []) c9exCol c9exState rfl c9exDoc
     (List.mem_singleton.mpr rfl) rfl⟩

theorem cleanup_clears_self (cid : String) (e : ExtState) (d : String) :
    cellValue (cleanupColumnState cid e).resultsByDoc d cid = none ∧
    (cleanupColumnState cid e).loading d cid = false := by
  unfold cleanupColumnState cellValue
  dsimp only
  constructor
  · cases e.resultsByDoc d <;> simp
  · simp

theorem cleanup_preserves_clear (cid c2 : String) (e : ExtState)
    (h : ∀ d, cellValue e.resultsByDoc d c2 = none ∧ e.loading d c2 = false) (d : String) :
    cellValue (cleanupColumnState cid e).resultsByDoc d c2 = none ∧
    (cleanupColumnState cid e).loading d c2 = false := by
  obtain ⟨hcell, hload⟩ := h d
  unfold cleanupColumnState cellValue
  dsimp only
  constructor
  · unfold cellValue at hcell
    cases hrd : e.resultsByDoc d
    · simp
    · rw [hrd] at hcell
      dsimp only at hcell
      by_cases hk : c2 = cid <;> simp [hk, hcell]
  · by_cases hk : c2 = cid <;> simp [hk, hload]

theorem foldl_cleanup_preserves (cols : List Column) :
    ∀ (e : ExtState) (c2 : String),
      (∀ d, cellValue e.resultsByDoc d c2 = none ∧ e.loading d c2 = false) →
      ∀ d, cellValue ((cols.foldl (fun acc c => cleanupColumnState c.id acc) e).resultsByDoc) d c2 = none ∧
        (cols.foldl (fun acc c => cleanupColumnState c.id acc) e).loading d c2 = false := by
  induction cols with
  | nil => intro e c2 h d; exact h d
  | cons c0 rest ih =>
    intro e c2 h d
    exact ih (cleanupColumnState c0.id e) c2 (cleanup_preserves_clear c0.id c2 e h) d

theorem foldl_cleanup_clears (cols : List Column) :
    ∀ (e : ExtState), ∀ c ∈ cols, ∀ d,
      cellValue ((cols.foldl (fun acc c => cleanupColumnState c.id acc) e).resultsByDoc) d c.id = none ∧
      (cols.foldl (fun acc c => cleanupColumnState c.id acc) e).loading d c.id = false := by
  induction cols with
  | nil => intro e c hc; exact absurd hc (List.not_mem_nil c)
  | cons c0 rest ih =>
    intro e c hc d
    rcases List.mem_cons.mp hc with rfl | hc
    · exact foldl_cleanup_preserves rest (cleanupColumnState c.id e) c.id
        (cleanup_clears_self c.id e) d
    · exact ih (cleanupColumnState c0.id e) c hc d

/-- Claim C5: redefining a custom type clears the matrix cells and loading
entries of every dependent column strictly before the type definition is
replaced (the after-cleanup state still holds the old type set and columns,
and already has every dependent cell absent) and strictly before any
re-extraction is issued: the type replacement changes only the type set, and
at the instant the deferred re-extraction loop starts every dependent
column's cells are absent and unloaded; the re-extractions then target
exactly the rewritten dependent columns. -/
theorem c5_invalidation_precedes_refetch (updatedType : CustomType) (originalName : String)
    (p : PageState) :
    ((handleUpdateCustomType updatedType originalName p).afterCleanup.customTypes = p.customTypes ∧
     (handleUpdateCustomType updatedType originalName p).afterCleanup.columns = p.columns) ∧
    (∀ c ∈ p.columns.filter (referencesType originalName), ∀ d,
      cellValue (handleUpdateCustomType updatedType originalName p).afterCleanup.ext.resultsByDoc
        d c.id = none ∧
      (handleUpdateCustomType updatedType originalName p).afterCleanup.ext.loading d c.id = false) ∧
    ((handleUpdateCustomType updatedType originalName p).afterTypeReplace.ext =
       (handleUpdateCustomType updatedType originalName p).afterCleanup.ext ∧
     (handleUpdateCustomType updatedType originalName p).afterTypeReplace.columns = p.columns ∧
     (handleUpdateCustomType updatedType originalName p).afterTypeReplace.customTypes =
       p.customTypes.map (fun t => if t.name = originalName then updatedType else t)) ∧
    ((handleUpdateCustomType updatedType originalName p).preExtract.ext =
       (handleUpdateCustomType updatedType originalName p).afterCleanup.ext) ∧
    (∀ c ∈ p.columns.filter (referencesType originalName), ∀ d,
      cellValue (handleUpdateCustomType updatedType originalName p).preExtract.ext.resultsByDoc
        d c.id = none ∧
      (handleUpdateCustomType updatedType originalName p).preExtract.ext.loading d c.id = false) ∧
    ((handleUpdateCustomType updatedType originalName p).extractTargets =
      (p.columns.filter (referencesType originalName)).map
        (fun c => { c with type := ColumnType.custom updatedType.name })) := by
  refine ⟨⟨rfl, rfl⟩, ?_, ⟨rfl, rfl, rfl⟩, rfl, ?_, rfl⟩ <;>
  · intro c hc d
    exact foldl_cleanup_clears (p.columns.filter (referencesType originalName)) p.ext c hc d

/-- Page-state fixture for the C5 witness: the column col_1 references the
type Person and holds a matrix value and a loading flag. -/
def c5exPage : PageState :=
  PageState.mk
    [Column.mk "col_1" "Owner" "od" (ColumnType.custom "Person") Cardinality.one,
     Column.mk "col_2" "Total" "td" (ColumnType.base BaseType.number) Cardinality.one]
    [CustomType.mk "Person" "pd" [Attribute.mk "age" "ad" BaseType.number]]
    (ExtState.mk
      (fun d => if d = "d1" then
        some (fun k => if k = "col_1" then some (Json.str "x") else none) else none)
      (fun d c => d = "d1" && c = "col_1")
      (fun _ => none))

/-- The redefined Person type used by the C5 witness. -/
def c5exNewType : CustomType :=
  CustomType.mk "Person2" "pd2"
    [Attribute.mk "age" "ad" BaseType.number, Attribute.mk "email" "ed" BaseType.text]

/-- Witness for C5: in the concrete redefinition run, the dependent column
col_1 is in the dependent set, its previously present cell is absent and its
loading flag cleared both after cleanup and at the instant re-extraction is
triggered, and the re-extraction targets are the rewritten dependents. -/
theorem c5_invalidation_precedes_refetch_witness :
    (Column.mk "col_1" "Owner" "od" (ColumnType.custom "Person") Cardinality.one ∈
      c5exPage.columns.filter (referencesType "Person")) ∧
    (cellValue c5exPage.ext.resultsByDoc "d1" "col_1" = some (Json.str "x")) ∧
    (cellValue (handleUpdateCustomType c5exNewType "Person" c5exPage).afterCleanup.ext.resultsByDoc
      "d1" "col_1" = none ∧
     (handleUpdateCustomType c5exNewType "Person" c5exPage).afterCleanup.ext.loading "d1" "col_1" = false) ∧
    (cellValue (handleUpdateCustomType c5exNewType "Person" c5exPage).preExtract.ext.resultsByDoc
      "d1" "col_1" = none ∧
     (handleUpdateCustomType c5exNewType "Person" c5exPage).preExtract.ext.loading "d1" "col_1" = false) ∧
    ((handleUpdateCustomType c5exNewType "Person" c5exPage).extractTargets =
      (c5exPage.columns.filter (referencesType "Person")).map
        (fun c => { c with type := ColumnType.custom c5exNewType.name })) :=
  ⟨by decide, rfl,
   (c5_invalidation_precedes_refetch c5exNewType "Person" c5exPage).2.1
     (Column.mk "col_1" "Owner" "od" (ColumnType.custom "Person") Cardinality.one) (by decide) "d1",
   (c5_invalidation_precedes_refetch c5exNewType "Person" c5exPage).2.2.2.2.1
     (Column.mk "col_1" "Owner" "od" (ColumnType.custom "Person") Cardinality.one) (by decide) "d1",
   (c5_invalidation_precedes_refetch c5exNewType "Person" c5exPage).2.2.2.2.2⟩

end AIP
